import Mathlib

/-!
# kaspad: per-connection RPC router and the transaction index

A shallow embedding of `app/rpc/rpc.go` (the handler table, `routerInitializer`,
`handleIncomingMessages`, `handleError`) and of the transaction index exercised by
`blockdag/indexers/txindex_test.go`.

Go values are embedded as follows.

* `error` is `Option GoError`; `none` is the nil error.
* A Go call returning `(value, error)` is a pair `value × error`.
* Effects (route operations, listener registration, disconnects, handler calls) are
  recorded in a trace of `Call`s, in program order.
* The blocking `Dequeue` is driven by the list of results it is going to deliver; when
  the list is used up the worker stays blocked inside `Dequeue`.
-/

namespace rpc

/-! ## Errors -/

/-- Go error values. `ErrTimeout` and `ErrRouteClosed` are the two sentinels declared by
the `router` package; `other` is any other base error; `wrap` is an error produced by
wrapping (`errors.Wrap`, `errors.WithStack`, ...) whose `Unwrap` yields `inner`. -/
inductive GoError where
  | ErrTimeout : GoError
  | ErrRouteClosed : GoError
  | other (id : Nat) : GoError
  | wrap (ctx : Nat) (inner : GoError) : GoError
  deriving DecidableEq, Repr

/-- The Go `error` interface type; `none` is `nil`. -/
abbrev error := Option GoError

/-- The unwrapping loop of `errors.Is` on a non-nil error: the error matches the target
when it is equal to it, or when the error obtained by `Unwrap` matches. -/
def GoError.matches : GoError → GoError → Bool
  | .wrap ctx inner, target =>
    if GoError.wrap ctx inner = target then true else GoError.matches inner target
  | e, target => decide (e = target)

/-- The call `errors.Is(err, target)` for a non-nil `target`: a nil `err` matches nothing. -/
def errors.Is (err : error) (target : GoError) : Bool :=
  match err with
  | none => false
  | some e => e.matches target

/-! ## Messages and the handler table -/

/-- The type `appmessage.MessageCommand`. The request commands that are keys of the handler
table keep their names; every other command of the protocol is `other n`. -/
inductive MessageCommand where
  | CmdGetCurrentNetworkRequestMessage
  | CmdSubmitBlockRequestMessage
  | CmdGetBlockTemplateRequestMessage
  | CmdNotifyBlockAddedRequestMessage
  | CmdGetPeerAddressesRequestMessage
  | CmdGetSelectedTipHashRequestMessage
  | CmdGetMempoolEntryRequestMessage
  | CmdGetConnectedPeerInfoRequestMessage
  | CmdAddPeerRequestMessage
  | CmdSubmitTransactionRequestMessage
  | CmdNotifyChainChangedRequestMessage
  | CmdGetBlockRequestMessage
  | CmdGetSubnetworkRequestMessage
  | CmdGetChainFromBlockRequestMessage
  | CmdGetBlocksRequestMessage
  | CmdGetBlockCountRequestMessage
  | CmdGetBlockDAGInfoRequestMessage
  | CmdResolveFinalityConflictRequestMessage
  | CmdNotifyFinalityConflictsRequestMessage
  | CmdGetMempoolEntriesRequestMessage
  | CmdShutDownRequestMessage
  | other (n : Nat)
  deriving DecidableEq, Repr

/-- The interface `appmessage.Message`: a command tag and an uninterpreted payload. -/
structure Message where
  Command : MessageCommand
  payload : Nat
  deriving DecidableEq, Repr

/-- The `handler` function type. The context and the router a handler receives are the
mutable world `σ`, passed in and returned. -/
abbrev handler (σ : Type) := σ → Message → (Message × error) × σ

/-- The functions of package `rpchandlers` that the table refers to. -/
structure rpchandlers (σ : Type) where
  HandleGetCurrentNetwork : handler σ
  HandleSubmitBlock : handler σ
  HandleGetBlockTemplate : handler σ
  HandleNotifyBlockAdded : handler σ
  HandleGetPeerAddresses : handler σ
  HandleGetSelectedTipHash : handler σ
  HandleGetMempoolEntry : handler σ
  HandleGetConnectedPeerInfo : handler σ
  HandleAddPeer : handler σ
  HandleSubmitTransaction : handler σ
  HandleNotifyChainChanged : handler σ
  HandleGetBlock : handler σ
  HandleGetSubnetwork : handler σ
  HandleGetChainFromBlock : handler σ
  HandleGetBlocks : handler σ
  HandleGetBlockCount : handler σ
  HandleGetBlockDAGInfo : handler σ
  HandleResolveFinalityConflict : handler σ
  HandleNotifyFinalityConflicts : handler σ
  HandleGetMempoolEntries : handler σ
  HandleShutDown : handler σ

/-- The `handlers` map literal, entry by entry. -/
def handlers {σ : Type} (h : rpchandlers σ) : List (MessageCommand × handler σ) :=
  [ (.CmdGetCurrentNetworkRequestMessage, h.HandleGetCurrentNetwork),
    (.CmdSubmitBlockRequestMessage, h.HandleSubmitBlock),
    (.CmdGetBlockTemplateRequestMessage, h.HandleGetBlockTemplate),
    (.CmdNotifyBlockAddedRequestMessage, h.HandleNotifyBlockAdded),
    (.CmdGetPeerAddressesRequestMessage, h.HandleGetPeerAddresses),
    (.CmdGetSelectedTipHashRequestMessage, h.HandleGetSelectedTipHash),
    (.CmdGetMempoolEntryRequestMessage, h.HandleGetMempoolEntry),
    (.CmdGetConnectedPeerInfoRequestMessage, h.HandleGetConnectedPeerInfo),
    (.CmdAddPeerRequestMessage, h.HandleAddPeer),
    (.CmdSubmitTransactionRequestMessage, h.HandleSubmitTransaction),
    (.CmdNotifyChainChangedRequestMessage, h.HandleNotifyChainChanged),
    (.CmdGetBlockRequestMessage, h.HandleGetBlock),
    (.CmdGetSubnetworkRequestMessage, h.HandleGetSubnetwork),
    (.CmdGetChainFromBlockRequestMessage, h.HandleGetChainFromBlock),
    (.CmdGetBlocksRequestMessage, h.HandleGetBlocks),
    (.CmdGetBlockCountRequestMessage, h.HandleGetBlockCount),
    (.CmdGetBlockDAGInfoRequestMessage, h.HandleGetBlockDAGInfo),
    (.CmdResolveFinalityConflictRequestMessage, h.HandleResolveFinalityConflict),
    (.CmdNotifyFinalityConflictsRequestMessage, h.HandleNotifyFinalityConflicts),
    (.CmdGetMempoolEntriesRequestMessage, h.HandleGetMempoolEntries),
    (.CmdShutDownRequestMessage, h.HandleShutDown) ]

/-- The map index expression `handlers[command]` with its `ok` flag. -/
def handlersLookup {σ : Type} (h : rpchandlers σ) (command : MessageCommand) :
    Option (handler σ) :=
  (handlers h).lookup command

/-! ## Effects -/

/-- A `*router.Router`, by identity. -/
abbrev Router := Nat

/-- A `*netadapter.NetConnection`, by identity. -/
abbrev NetConnection := Nat

/-- One effect of the worker, as it appears in the trace. -/
inductive Call where
  /-- The call `incomingRoute.Dequeue()`, which returned `(request, err)`. -/
  | Dequeue (request : Message) (err : error)
  /-- The handler was invoked on `request` and returned `(response, err)`. -/
  | handler (request : Message) (response : Message) (err : error)
  /-- The call `outgoingRoute.Enqueue(message)`, which returned `err`. -/
  | Enqueue (message : Message) (err : error)
  /-- The call `router.AddIncomingRoute(messageTypes)`, which returned `err`. -/
  | AddIncomingRoute (messageTypes : List MessageCommand) (err : error)
  /-- The call `NotificationManager.AddListener(router)`. -/
  | AddListener (router : Router)
  /-- The call `NotificationManager.RemoveListener(router)`. -/
  | RemoveListener (router : Router)
  /-- The call of `log.Warnf` with the timeout message for the connection. -/
  | Warnf (netConnection : NetConnection)
  /-- The call `netConnection.Disconnect()`. -/
  | Disconnect (netConnection : NetConnection)
  deriving DecidableEq, Repr

/-- How a piece of code stops: it returns an error value, it panics with a value, or it
never gets past a blocking `Dequeue`. -/
inductive Outcome where
  | returned (err : error)
  | panicked (v : error)
  | blocked
  deriving DecidableEq, Repr

/-- The result of running code from a world `σ`: the effects in order, the world
afterwards and the way it stopped. -/
structure Run (σ : Type) where
  calls : List Call
  state : σ
  outcome : Outcome

/-- The run `r` preceded by the effects `cs`. -/
def Run.after {σ : Type} (cs : List Call) (r : Run σ) : Run σ :=
  { calls := cs ++ r.calls, state := r.state, outcome := r.outcome }

/-- The per-connection environment of the manager: the `rpchandlers` functions and the
`Enqueue` operation of the router's outgoing route. -/
structure Manager (σ : Type) where
  rpchandlers : rpchandlers σ
  Enqueue : σ → Message → error × σ

/-! ## The worker -/

/-- The function `handleIncomingMessages`: the loop over the results `incomingRoute.Dequeue()`
delivers. -/
def handleIncomingMessages {σ : Type} (m : Manager σ) :
    σ → List (Message × error) → Run σ
  | s, [] => { calls := [], state := s, outcome := .blocked }
  | s, (request, err) :: incomingRoute =>
    if err ≠ none then
      { calls := [.Dequeue request err], state := s, outcome := .returned err }
    else
      match handlersLookup m.rpchandlers request.Command with
      | none =>
        { calls := [.Dequeue request err], state := s, outcome := .returned err }
      | some handler =>
        match handler s request with
        | ((response, err1), s1) =>
          if err1 ≠ none then
            { calls := [.Dequeue request err, .handler request response err1],
              state := s1, outcome := .returned err1 }
          else
            match m.Enqueue s1 response with
            | (err2, s2) =>
              if err2 ≠ none then
                { calls := [.Dequeue request err, .handler request response err1,
                            .Enqueue response err2],
                  state := s2, outcome := .returned err2 }
              else
                (handleIncomingMessages m s2 incomingRoute).after
                  [.Dequeue request err, .handler request response err1,
                   .Enqueue response err2]

/-- The effects and the outcome of `handleError`. -/
structure ErrorHandling where
  calls : List Call
  outcome : Outcome
  deriving DecidableEq, Repr

/-- The function `handleError`. A normal return is `returned none` (the function has no result). -/
def handleError (err : error) (netConnection : NetConnection) : ErrorHandling :=
  if errors.Is err .ErrTimeout then
    { calls := [.Warnf netConnection, .Disconnect netConnection],
      outcome := .returned none }
  else if errors.Is err .ErrRouteClosed then
    { calls := [], outcome := .returned none }
  else
    { calls := [], outcome := .panicked err }

/-- The body of the goroutine spawned by `routerInitializer`. The deferred
`RemoveListener(router)` runs when the body returns or panics; it does not run while the
body is still blocked. -/
def worker {σ : Type} (m : Manager σ) (router : Router) (netConnection : NetConnection)
    (s : σ) (incomingRoute : List (Message × error)) : Run σ :=
  let loop := handleIncomingMessages m s incomingRoute
  match loop.outcome with
  | .returned err =>
    let h := handleError err netConnection
    { calls := loop.calls ++ h.calls ++ [.RemoveListener router],
      state := loop.state, outcome := h.outcome }
  | .panicked v =>
    { calls := loop.calls ++ [.RemoveListener router],
      state := loop.state, outcome := .panicked v }
  | .blocked => loop

/-- The loop of `routerInitializer` that collects the keys of `handlers`, run over the
entries in the order `iteration` in which `range` visits them. -/
def messageTypes {σ : Type} (iteration : List (MessageCommand × handler σ)) :
    List MessageCommand :=
  iteration.foldl (fun acc entry => acc ++ [entry.1]) []

/-- The function `routerInitializer`. `iteration` is the order in which `range` visits
the entries of `handlers`; `AddIncomingRoute` is the router operation, giving for the
list of commands it is passed the error it returns and the results the new route is
going to deliver. The spawned worker is run to its end. -/
def routerInitializer {σ : Type} (m : Manager σ) (router : Router)
    (netConnection : NetConnection) (s : σ)
    (iteration : List (MessageCommand × handler σ))
    (AddIncomingRoute : List MessageCommand → List (Message × error) × error) : Run σ :=
  match AddIncomingRoute (messageTypes iteration) with
  | (incomingRoute, err) =>
    if err ≠ none then
      { calls := [.AddIncomingRoute (messageTypes iteration) err], state := s,
        outcome := .panicked err }
    else
      (worker m router netConnection s incomingRoute).after
        [.AddIncomingRoute (messageTypes iteration) err, .AddListener router]

/-! ## Projections of a trace -/

/-- The connections on which `Disconnect` was called, in order. -/
def disconnected : List Call → List NetConnection
  | [] => []
  | .Disconnect c :: rest => c :: disconnected rest
  | _ :: rest => disconnected rest

/-- The messages passed to `outgoingRoute.Enqueue`, in order. -/
def enqueued : List Call → List Message
  | [] => []
  | .Enqueue message _ :: rest => message :: enqueued rest
  | _ :: rest => enqueued rest

/-- The requests on which a handler was invoked, in order. -/
def handledRequests : List Call → List Message
  | [] => []
  | .handler request _ _ :: rest => request :: handledRequests rest
  | _ :: rest => handledRequests rest

/-- The responses returned by the handler invocations, in order. -/
def responses : List Call → List Message
  | [] => []
  | .handler _ response _ :: rest => response :: responses rest
  | _ :: rest => responses rest

/-- The handler invocations, in order, each as the pair of the request it was invoked
on and the response it returned. -/
def answered : List Call → List (Message × Message)
  | [] => []
  | .handler request response _ :: rest => (request, response) :: answered rest
  | _ :: rest => answered rest

/-- The results delivered by `Dequeue`, in order. -/
def dequeued : List Call → List (Message × error)
  | [] => []
  | .Dequeue request err :: rest => (request, err) :: dequeued rest
  | _ :: rest => dequeued rest

/-- The lists of commands passed to `router.AddIncomingRoute`, in order. -/
def allowLists : List Call → List (List MessageCommand)
  | [] => []
  | .AddIncomingRoute messageTypes _ :: rest => messageTypes :: allowLists rest
  | _ :: rest => allowLists rest

/-- The calls to the NotificationManager, in order. -/
def listenerCalls : List Call → List Call
  | [] => []
  | .AddListener r :: rest => .AddListener r :: listenerCalls rest
  | .RemoveListener r :: rest => .RemoveListener r :: listenerCalls rest
  | _ :: rest => listenerCalls rest

/-- A handler invocation or an `Enqueue` that returned a non-nil error. -/
def Call.failed : Call → Bool
  | .handler _ _ (some _) => true
  | .Enqueue _ (some _) => true
  | _ => false

/-- The inbound route delivering the requests `requests`, each with a nil error. -/
def delivered (requests : List Message) : List (Message × error) :=
  requests.map (fun request => (request, none))

/-! ## A sample environment -/

/-- A handler that answers a request with the same command and the payload plus the
number of requests served so far, and counts the request. -/
def sampleEcho : handler Nat :=
  fun s request => (({ Command := request.Command, payload := request.payload + s }, none), s + 1)

/-- A handler that fails with the base error `other 7`. -/
def sampleFailing : handler Nat :=
  fun s request => ((request, some (.other 7)), s)

/-- Sample `rpchandlers`: every handler echoes, except `HandleShutDown`, which fails. -/
def sampleHandlers : rpchandlers Nat :=
  { HandleGetCurrentNetwork := sampleEcho, HandleSubmitBlock := sampleEcho,
    HandleGetBlockTemplate := sampleEcho, HandleNotifyBlockAdded := sampleEcho,
    HandleGetPeerAddresses := sampleEcho, HandleGetSelectedTipHash := sampleEcho,
    HandleGetMempoolEntry := sampleEcho, HandleGetConnectedPeerInfo := sampleEcho,
    HandleAddPeer := sampleEcho, HandleSubmitTransaction := sampleEcho,
    HandleNotifyChainChanged := sampleEcho, HandleGetBlock := sampleEcho,
    HandleGetSubnetwork := sampleEcho, HandleGetChainFromBlock := sampleEcho,
    HandleGetBlocks := sampleEcho, HandleGetBlockCount := sampleEcho,
    HandleGetBlockDAGInfo := sampleEcho, HandleResolveFinalityConflict := sampleEcho,
    HandleNotifyFinalityConflicts := sampleEcho, HandleGetMempoolEntries := sampleEcho,
    HandleShutDown := sampleFailing }

/-- A sample manager whose outgoing route accepts every message, except that it is
closed for messages with payload `99`. -/
def sampleManager : Manager Nat :=
  { rpchandlers := sampleHandlers,
    Enqueue := fun s message =>
      if message.payload = 99 then (some (.wrap 0 .ErrRouteClosed), s) else (none, s) }

end rpc

namespace indexers

/-! ## The transaction index

The index itself (`NewTxIndex`, `ConnectBlock`, `BlockThatAcceptedTx`,
`TxFirstBlockRegion`) is not among the sources; only its test is. It is modelled from
the specification. Digests and canonical encodings are data of the model: the hash
function and the wire format belong to other packages.
-/

/-- A digest (`daghash.Hash`). -/
abbrev Hash := Nat

/-- A transaction (`wire.MsgTx`): its digest and its canonical encoding, as bytes. -/
structure MsgTx where
  TxHash : Hash
  encoding : List Nat
  deriving DecidableEq, Repr

/-- A block (`util.Block`): its digest, the bytes of its serialized form that come
before the transactions (header and transaction count), and its transactions in
order. -/
structure Block where
  Hash : Hash
  header : List Nat
  Transactions : List MsgTx
  deriving DecidableEq, Repr

/-- Modelled from the spec: the serialization of a block (`util.Block.Bytes`, missing
from the sources). The canonical serialized form of a block is the header part followed
by the canonical encodings of its transactions, in order. -/
def Block.Bytes (block : Block) : List Nat :=
  block.header ++ (block.Transactions.map (fun tx => tx.encoding)).flatten

/-- A `FirstSeenRegion` value: block digest, byte offset and byte length. -/
structure BlockRegion where
  Hash : Hash
  Offset : Nat
  Len : Nat
  deriving DecidableEq, Repr

/-- The error taxonomy of the index. -/
inductive IndexError where
  | NotFound
  deriving DecidableEq, Repr

/-- Modelled from the spec: the state of `TxIndex` (the type is missing from the
sources). `AcceptingBlockRecord` maps a transaction digest to its accepting block
digest and `FirstSeenRegion` maps a transaction digest to its region; both are
association lists, the first entry for a key being the current one. -/
structure TxIndex where
  AcceptingBlockRecord : List (Hash × Hash)
  FirstSeenRegion : List (Hash × BlockRegion)
  deriving DecidableEq, Repr

/-- Modelled from the spec: the constructor `NewTxIndex` (missing from the sources); a
new index has no records. -/
def NewTxIndex : TxIndex :=
  { AcceptingBlockRecord := [], FirstSeenRegion := [] }

/-- The byte ranges of the transactions `txs` laid out one after the other from
`offset` in the serialized form of the block with digest `blockHash`. -/
def txRegions (blockHash : Hash) : Nat → List MsgTx → List (Hash × BlockRegion)
  | _, [] => []
  | offset, tx :: txs =>
    (tx.TxHash, { Hash := blockHash, Offset := offset, Len := tx.encoding.length }) ::
      txRegions blockHash (offset + tx.encoding.length) txs

/-- Write a region for a transaction unless one is already recorded. -/
def recordFirstSeen (regions : List (Hash × BlockRegion)) (entry : Hash × BlockRegion) :
    List (Hash × BlockRegion) :=
  match regions.lookup entry.1 with
  | some _ => regions
  | none => entry :: regions

/-- Modelled from the spec: the operation `ConnectBlock(block, acceptedTransactions)`
of `TxIndex` (missing from the sources). For each transaction in
`acceptedTransactions` it sets `AcceptingBlockRecord[tx] = block`; for each
transaction in `block` not yet present in `FirstSeenRegion` it records the
transaction's byte range within the block's canonical encoding. -/
def ConnectBlock (idx : TxIndex) (block : Block) (acceptedTransactions : List MsgTx) :
    TxIndex :=
  { AcceptingBlockRecord :=
      acceptedTransactions.foldl (fun records tx => (tx.TxHash, block.Hash) :: records)
        idx.AcceptingBlockRecord,
    FirstSeenRegion :=
      (txRegions block.Hash block.header.length block.Transactions).foldl recordFirstSeen
        idx.FirstSeenRegion }

/-- Modelled from the spec: the operation
`DisconnectBlock(block, reassignedAcceptances)` of `TxIndex` (missing from the
sources). Consensus supplies the replacement acceptance (transaction digest, new
accepting block digest) for every transaction whose accepting block changes, and the
index overwrites `AcceptingBlockRecord` accordingly; `FirstSeenRegion` is not
touched. -/
def DisconnectBlock (idx : TxIndex) (_block : Block)
    (reassignedAcceptances : List (Hash × Hash)) : TxIndex :=
  { AcceptingBlockRecord :=
      reassignedAcceptances.foldl (fun records entry => entry :: records)
        idx.AcceptingBlockRecord,
    FirstSeenRegion := idx.FirstSeenRegion }

/-- Modelled from the spec: the query `BlockThatAcceptedTx` of `TxIndex` (missing from
the sources); `NotFound` when the transaction has no accepting block record. -/
def BlockThatAcceptedTx (idx : TxIndex) (txHash : Hash) : Except IndexError Hash :=
  match idx.AcceptingBlockRecord.lookup txHash with
  | some blockHash => .ok blockHash
  | none => .error .NotFound

/-- Modelled from the spec: the query `TxFirstBlockRegion` of `TxIndex` (missing from
the sources); `NotFound` when the transaction was never observed. -/
def TxFirstBlockRegion (idx : TxIndex) (txHash : Hash) : Except IndexError BlockRegion :=
  match idx.FirstSeenRegion.lookup txHash with
  | some region => .ok region
  | none => .error .NotFound

/-- An event emitted by Consensus. -/
inductive Event where
  | connect (block : Block) (acceptedTransactions : List MsgTx)
  | disconnect (block : Block) (reassignedAcceptances : List (Hash × Hash))
  deriving DecidableEq, Repr

/-- Apply one Consensus event to the index. -/
def applyEvent (idx : TxIndex) : Event → TxIndex
  | .connect block acceptedTransactions => ConnectBlock idx block acceptedTransactions
  | .disconnect block reassignedAcceptances =>
    DisconnectBlock idx block reassignedAcceptances

/-- Apply Consensus events in order. -/
def applyEvents (idx : TxIndex) (events : List Event) : TxIndex :=
  events.foldl applyEvent idx

/-- The blocks connected by the events, in order. -/
def connectedBlocks : List Event → List Block
  | [] => []
  | .connect block _ :: events => block :: connectedBlocks events
  | .disconnect _ _ :: events => connectedBlocks events

/-- Whether the event sets the accepting block of the transaction with digest
`txHash`. -/
def Event.assigns (txHash : Hash) : Event → Bool
  | .connect _ acceptedTransactions =>
    acceptedTransactions.any (fun tx => decide (tx.TxHash = txHash))
  | .disconnect _ reassignedAcceptances =>
    reassignedAcceptances.any (fun entry => decide (entry.1 = txHash))

/-- The Go slice expression `bytes[offset : offset+len]` of the test. It yields the
bytes `[offset, offset + len)` when the range lies within `bytes`, and is `none` when
it does not (the expression panics at run time); it never yields fewer than `len`
bytes. -/
def slice (bytes : List Nat) (offset len : Nat) : Option (List Nat) :=
  if offset + len ≤ bytes.length then some ((bytes.drop offset).take len) else none

/-- The invariant of `FirstSeenRegion` with respect to the blocks connected so far:
every recorded region lies within the serialized form of a connected block with the
recorded digest and addresses there exactly the encoding of a transaction with the
recorded key; and every transaction of a connected block has a record. -/
def RegionsValid (regions : List (Hash × BlockRegion)) (blocks : List Block) : Prop :=
  (∀ k r, regions.lookup k = some r →
    ∃ b ∈ blocks, ∃ t ∈ b.Transactions, t.TxHash = k ∧ b.Hash = r.Hash ∧
      slice b.Bytes r.Offset r.Len = some t.encoding) ∧
  (∀ b ∈ blocks, ∀ t ∈ b.Transactions, (regions.lookup t.TxHash).isSome = true)

/-! ## The scenario of `TestTxIndexConnectBlock`

The fixture blocks of the test, reduced to what the model of the index uses. The digests
are labels (the hash function is not part of the model), and the encodings are
stand-ins taken from the fixture: for a coinbase transaction its signature script, for
the two other transactions the first eight bytes of theirs; the header part of a block
is its version followed by its number of transactions.
-/

/-- The coinbase transaction of `block1`. -/
def block1Coinbase : MsgTx :=
  { TxHash := 101,
    encoding := [0x51, 0x00, 0x0b, 0x2f, 0x50, 0x32, 0x53, 0x48, 0x2f, 0x62, 0x74, 0x63,
      0x64, 0x2f] }

/-- The coinbase transaction of `block2`. -/
def block2Coinbase : MsgTx :=
  { TxHash := 102,
    encoding := [0x52, 0x00, 0x0b, 0x2f, 0x50, 0x32, 0x53, 0x48, 0x2f, 0x62, 0x74, 0x63,
      0x64, 0x2f] }

/-- The second transaction of `block2`, which spends the coinbase of `block1`. -/
def block2Tx : MsgTx :=
  { TxHash := 202, encoding := [0x47, 0x30, 0x44, 0x02, 0x20, 0x08, 0x3e, 0x75] }

/-- The transaction `block3Tx`, embedded in `block3` and in `block3A`. -/
def block3Tx : MsgTx :=
  { TxHash := 203, encoding := [0x48, 0x30, 0x45, 0x02, 0x21, 0x00, 0x94, 0x6a] }

/-- The coinbase transaction of `block3`. -/
def block3Coinbase : MsgTx :=
  { TxHash := 103,
    encoding := [0x53, 0x00, 0x0b, 0x2f, 0x50, 0x32, 0x53, 0x48, 0x2f, 0x62, 0x74, 0x63,
      0x64, 0x2f] }

/-- The coinbase transaction of `block3A`. -/
def block3ACoinbase : MsgTx :=
  { TxHash := 113,
    encoding := [0x53, 0x51, 0x0b, 0x2f, 0x50, 0x32, 0x53, 0x48, 0x2f, 0x62, 0x74, 0x63,
      0x64, 0x2f] }

/-- The coinbase transaction of `block4`. -/
def block4Coinbase : MsgTx :=
  { TxHash := 104,
    encoding := [0x54, 0x00, 0x0b, 0x2f, 0x50, 0x32, 0x53, 0x48, 0x2f, 0x62, 0x74, 0x63,
      0x64, 0x2f] }

/-- The coinbase transaction of `block5`. -/
def block5Coinbase : MsgTx :=
  { TxHash := 105,
    encoding := [0x55, 0x00, 0x0b, 0x2f, 0x50, 0x32, 0x53, 0x48, 0x2f, 0x62, 0x74, 0x63,
      0x64, 0x2f] }

def block1 : Block := { Hash := 1, header := [1, 1], Transactions := [block1Coinbase] }

def block2 : Block :=
  { Hash := 2, header := [1, 2], Transactions := [block2Coinbase, block2Tx] }

def block3 : Block :=
  { Hash := 3, header := [1, 2], Transactions := [block3Coinbase, block3Tx] }

def block3A : Block :=
  { Hash := 13, header := [1, 2], Transactions := [block3ACoinbase, block3Tx] }

def block4 : Block := { Hash := 4, header := [1, 1], Transactions := [block4Coinbase] }

def block5 : Block := { Hash := 5, header := [1, 1], Transactions := [block5Coinbase] }

/-- The events of processing blocks 1 and 2: each block accepts its own
transactions. -/
def eventsBeforeBlock3 : List Event :=
  [.connect block1 block1.Transactions, .connect block2 block2.Transactions]

/-- The events of processing blocks 3A, 4 and 5 after block 3, as Consensus decides
them: block 3A is connected beside the selected chain; the selected chain then moves
from block 3 to block 3A and the transactions of 3A are reassigned to it; blocks 4 and 5
accept their own transactions. -/
def eventsAfterBlock3 : List Event :=
  [.connect block3A [],
   .disconnect block3 [(block3ACoinbase.TxHash, block3A.Hash), (block3Tx.TxHash, block3A.Hash)],
   .connect block4 block4.Transactions,
   .connect block5 block5.Transactions]

/-- All the events of the test, in order. -/
def scenario : List Event :=
  eventsBeforeBlock3 ++ .connect block3 block3.Transactions :: eventsAfterBlock3

end indexers

namespace rpc

/-! ## One iteration of the loop -/

section Steps

variable {σ : Type} (m : Manager σ)

theorem step_dequeue_error (s : σ) (request : Message) (e : GoError)
    (rest : List (Message × error)) :
    handleIncomingMessages m s ((request, some e) :: rest) =
      { calls := [.Dequeue request (some e)], state := s, outcome := .returned (some e) } := by
  simp [handleIncomingMessages]

theorem step_no_handler (s : σ) (request : Message) (rest : List (Message × error))
    (hl : handlersLookup m.rpchandlers request.Command = none) :
    handleIncomingMessages m s ((request, none) :: rest) =
      { calls := [.Dequeue request none], state := s, outcome := .returned none } := by
  simp [handleIncomingMessages, hl]

theorem step_handler_error (s s1 : σ) (request response : Message) (e : GoError)
    (h : handler σ) (rest : List (Message × error))
    (hl : handlersLookup m.rpchandlers request.Command = some h)
    (hh : h s request = ((response, some e), s1)) :
    handleIncomingMessages m s ((request, none) :: rest) =
      { calls := [.Dequeue request none, .handler request response (some e)],
        state := s1, outcome := .returned (some e) } := by
  simp [handleIncomingMessages, hl, hh]

theorem step_enqueue_error (s s1 s2 : σ) (request response : Message) (e : GoError)
    (h : handler σ) (rest : List (Message × error))
    (hl : handlersLookup m.rpchandlers request.Command = some h)
    (hh : h s request = ((response, none), s1))
    (he : m.Enqueue s1 response = (some e, s2)) :
    handleIncomingMessages m s ((request, none) :: rest) =
      { calls := [.Dequeue request none, .handler request response none,
                  .Enqueue response (some e)],
        state := s2, outcome := .returned (some e) } := by
  simp [handleIncomingMessages, hl, hh, he]

theorem step_ok (s s1 s2 : σ) (request response : Message)
    (h : handler σ) (rest : List (Message × error))
    (hl : handlersLookup m.rpchandlers request.Command = some h)
    (hh : h s request = ((response, none), s1))
    (he : m.Enqueue s1 response = (none, s2)) :
    handleIncomingMessages m s ((request, none) :: rest) =
      (handleIncomingMessages m s2 rest).after
        [.Dequeue request none, .handler request response none, .Enqueue response none] := by
  simp [handleIncomingMessages, hl, hh, he]

end Steps

/-! ## Projections distribute over concatenation -/

theorem enqueued_append (a b : List Call) : enqueued (a ++ b) = enqueued a ++ enqueued b := by
  induction a with
  | nil => rfl
  | cons c a ih => cases c <;> simp [enqueued, ih]

theorem responses_append (a b : List Call) :
    responses (a ++ b) = responses a ++ responses b := by
  induction a with
  | nil => rfl
  | cons c a ih => cases c <;> simp [responses, ih]

theorem handledRequests_append (a b : List Call) :
    handledRequests (a ++ b) = handledRequests a ++ handledRequests b := by
  induction a with
  | nil => rfl
  | cons c a ih => cases c <;> simp [handledRequests, ih]

theorem dequeued_append (a b : List Call) : dequeued (a ++ b) = dequeued a ++ dequeued b := by
  induction a with
  | nil => rfl
  | cons c a ih => cases c <;> simp [dequeued, ih]

theorem listenerCalls_append (a b : List Call) :
    listenerCalls (a ++ b) = listenerCalls a ++ listenerCalls b := by
  induction a with
  | nil => rfl
  | cons c a ih => cases c <;> simp [listenerCalls, ih]

theorem allowLists_append (a b : List Call) :
    allowLists (a ++ b) = allowLists a ++ allowLists b := by
  induction a with
  | nil => rfl
  | cons c a ih => cases c <;> simp [allowLists, ih]

theorem disconnected_append (a b : List Call) :
    disconnected (a ++ b) = disconnected a ++ disconnected b := by
  induction a with
  | nil => rfl
  | cons c a ih => cases c <;> simp [disconnected, ih]

/-! ## Runs of the loop -/

section Loop

variable {σ : Type} (m : Manager σ)

/-- The loop makes no call to the NotificationManager, disconnects nothing and adds no
route. -/
theorem loop_calls_plain (incomingRoute : List (Message × error)) (s : σ) :
    listenerCalls (handleIncomingMessages m s incomingRoute).calls = [] ∧
      disconnected (handleIncomingMessages m s incomingRoute).calls = [] ∧
      allowLists (handleIncomingMessages m s incomingRoute).calls = [] := by
  induction incomingRoute generalizing s with
  | nil => simp [handleIncomingMessages, listenerCalls, disconnected, allowLists]
  | cons x rest ih =>
    obtain ⟨request, err⟩ := x
    cases err with
    | some e => simp [step_dequeue_error, listenerCalls, disconnected, allowLists]
    | none =>
      cases hl : handlersLookup m.rpchandlers request.Command with
      | none => simp [step_no_handler m s request rest hl, listenerCalls, disconnected, allowLists]
      | some h =>
        rcases hh : h s request with ⟨⟨response, e1⟩, s1⟩
        cases e1 with
        | some e =>
          simp [step_handler_error m s s1 request response e h rest hl hh, listenerCalls,
            disconnected, allowLists]
        | none =>
          rcases he : m.Enqueue s1 response with ⟨e2, s2⟩
          cases e2 with
          | some e =>
            simp [step_enqueue_error m s s1 s2 request response e h rest hl hh he,
              listenerCalls, disconnected, allowLists]
          | none =>
            rw [step_ok m s s1 s2 request response h rest hl hh he]
            simp [Run.after, listenerCalls, disconnected, allowLists, ih s2]

/-- The loop never panics. -/
theorem loop_not_panicked (incomingRoute : List (Message × error)) (s : σ) (v : error) :
    (handleIncomingMessages m s incomingRoute).outcome ≠ .panicked v := by
  induction incomingRoute generalizing s with
  | nil => simp [handleIncomingMessages]
  | cons x rest ih =>
    obtain ⟨request, err⟩ := x
    cases err with
    | some e => simp [step_dequeue_error]
    | none =>
      cases hl : handlersLookup m.rpchandlers request.Command with
      | none => simp [step_no_handler m s request rest hl]
      | some h =>
        rcases hh : h s request with ⟨⟨response, e1⟩, s1⟩
        cases e1 with
        | some e => simp [step_handler_error m s s1 request response e h rest hl hh]
        | none =>
          rcases he : m.Enqueue s1 response with ⟨e2, s2⟩
          cases e2 with
          | some e =>
            simp [step_enqueue_error m s s1 s2 request response e h rest hl hh he]
          | none =>
            rw [step_ok m s s1 s2 request response h rest hl hh he]
            exact ih s2

/-- When every request has a handler and no handler call or `Enqueue` of the run
failed, the loop handled the requests delivered, enqueued the responses of the handler
calls, and ended as `stop` dictates. -/
theorem loop_succeeding (stop : List (Message × error))
    (hstop : ∀ x ∈ stop.head?, x.2 ≠ none) (requests : List Message) (s : σ)
    (hhandler : ∀ r ∈ requests, (handlersLookup m.rpchandlers r.Command).isSome = true)
    (hcalls : ∀ c ∈ (handleIncomingMessages m s (delivered requests ++ stop)).calls,
      c.failed = false) :
    handledRequests (handleIncomingMessages m s (delivered requests ++ stop)).calls = requests ∧
    enqueued (handleIncomingMessages m s (delivered requests ++ stop)).calls =
      responses (handleIncomingMessages m s (delivered requests ++ stop)).calls ∧
    (enqueued (handleIncomingMessages m s (delivered requests ++ stop)).calls).length =
      requests.length ∧
    dequeued (handleIncomingMessages m s (delivered requests ++ stop)).calls =
      delivered requests ++ stop.take 1 ∧
    (handleIncomingMessages m s (delivered requests ++ stop)).outcome =
      (match stop.head? with
        | none => Outcome.blocked
        | some x => Outcome.returned x.2) ∧
    answered (handleIncomingMessages m s (delivered requests ++ stop)).calls =
      requests.zip (enqueued (handleIncomingMessages m s (delivered requests ++ stop)).calls) := by
  induction requests generalizing s with
  | nil =>
    cases stop with
    | nil => simp [delivered, handleIncomingMessages, handledRequests, enqueued, responses,
        dequeued, answered]
    | cons x rest =>
      obtain ⟨request, err⟩ := x
      cases err with
      | none => exact absurd rfl (hstop (request, none) (by simp))
      | some e =>
        simp [delivered, step_dequeue_error, handledRequests, enqueued, responses, dequeued,
          answered]
  | cons r rs ih =>
    have hr := hhandler r (by simp)
    cases hl : handlersLookup m.rpchandlers r.Command with
    | none => simp [hl] at hr
    | some h =>
      rcases hh : h s r with ⟨⟨response, e1⟩, s1⟩
      have hd : delivered (r :: rs) ++ stop = (r, none) :: (delivered rs ++ stop) := by
        simp [delivered]
      rw [hd] at hcalls ⊢
      cases e1 with
      | some e =>
        rw [step_handler_error m s s1 r response e h _ hl hh] at hcalls
        have := hcalls (.handler r response (some e)) (by simp)
        simp [Call.failed] at this
      | none =>
        rcases he : m.Enqueue s1 response with ⟨e2, s2⟩
        cases e2 with
        | some e =>
          rw [step_enqueue_error m s s1 s2 r response e h _ hl hh he] at hcalls
          have := hcalls (.Enqueue response (some e)) (by simp)
          simp [Call.failed] at this
        | none =>
          rw [step_ok m s s1 s2 r response h _ hl hh he] at hcalls ⊢
          have ih2 := ih s2 (fun q hq => hhandler q (by simp [hq]))
            (fun c hc => hcalls c (by simp [Run.after, hc]))
          obtain ⟨h1, h2, h3, h4, h5, h6⟩ := ih2
          refine ⟨?_, ?_, ?_, ?_, ?_, ?_⟩
          · simp [Run.after, handledRequests, h1]
          · simp [Run.after, handledRequests, enqueued, responses, h2]
          · simp [Run.after, enqueued, h3]
          · simp only [delivered] at h4
            simp [Run.after, dequeued, delivered, h4]
          · simpa [Run.after] using h5
          · simp [Run.after, answered, enqueued, h6]

theorem Run.after_nil (r : Run σ) : r.after [] = r := by
  cases r; rfl

theorem Run.after_after (a b : List Call) (r : Run σ) :
    (r.after b).after a = r.after (a ++ b) := by
  cases r; simp [Run.after]

/-- A run that is blocked after the results `xs` continues with the results `ys` from the
world it reached. -/
theorem loop_append (xs ys : List (Message × error)) (s : σ)
    (hb : (handleIncomingMessages m s xs).outcome = .blocked) :
    handleIncomingMessages m s (xs ++ ys) =
      (handleIncomingMessages m (handleIncomingMessages m s xs).state ys).after
        (handleIncomingMessages m s xs).calls := by
  induction xs generalizing s with
  | nil => simp [handleIncomingMessages, Run.after_nil]
  | cons x rest ih =>
    obtain ⟨request, err⟩ := x
    cases err with
    | some e => simp [step_dequeue_error] at hb
    | none =>
      cases hl : handlersLookup m.rpchandlers request.Command with
      | none => simp [step_no_handler m s request rest hl] at hb
      | some h =>
        rcases hh : h s request with ⟨⟨response, e1⟩, s1⟩
        cases e1 with
        | some e => simp [step_handler_error m s s1 request response e h rest hl hh] at hb
        | none =>
          rcases he : m.Enqueue s1 response with ⟨e2, s2⟩
          cases e2 with
          | some e =>
            simp [step_enqueue_error m s s1 s2 request response e h rest hl hh he] at hb
          | none =>
            rw [step_ok m s s1 s2 request response h rest hl hh he] at hb ⊢
            rw [List.cons_append, step_ok m s s1 s2 request response h (rest ++ ys) hl hh he]
            rw [ih s2 hb]
            simp [Run.after]

end Loop

/-! ## The claims about the RPC worker -/

/-- C1. When the inbound route delivers the requests `requests` (and after them nothing
more, or a `Dequeue` error), every request has a handler, and no handler call and no
`Enqueue` of the run fails, then `handleIncomingMessages` invoked a handler on exactly
these requests in order, enqueued exactly the responses the handler calls returned, in
the same order, and so enqueued as many messages as there were requests: the i-th
handler call is on the i-th request and returns the i-th enqueued message. -/
theorem handleIncomingMessages_responses_in_order {σ : Type} (m : Manager σ) (s : σ)
    (requests : List Message) (stop : List (Message × error))
    (hstop : ∀ x ∈ stop.head?, x.2 ≠ none)
    (hhandler : ∀ r ∈ requests, (handlersLookup m.rpchandlers r.Command).isSome = true)
    (hcalls : ∀ c ∈ (handleIncomingMessages m s (delivered requests ++ stop)).calls,
      c.failed = false) :
    handledRequests (handleIncomingMessages m s (delivered requests ++ stop)).calls = requests ∧
    enqueued (handleIncomingMessages m s (delivered requests ++ stop)).calls =
      responses (handleIncomingMessages m s (delivered requests ++ stop)).calls ∧
    (enqueued (handleIncomingMessages m s (delivered requests ++ stop)).calls).length =
      requests.length ∧
    answered (handleIncomingMessages m s (delivered requests ++ stop)).calls =
      requests.zip (enqueued (handleIncomingMessages m s (delivered requests ++ stop)).calls) := by
  obtain ⟨h1, h2, h3, _, _, h6⟩ := loop_succeeding m stop hstop requests s hhandler hcalls
  exact ⟨h1, h2, h3, h6⟩

/-- Witness for C1: three requests followed by the closing of the route, in the sample
environment. -/
theorem handleIncomingMessages_responses_in_order_witness :
    enqueued (handleIncomingMessages sampleManager 0
        (delivered [⟨.CmdGetBlockRequestMessage, 5⟩, ⟨.CmdGetBlocksRequestMessage, 6⟩,
            ⟨.CmdGetBlockCountRequestMessage, 1⟩] ++
          [(⟨.other 0, 0⟩, some .ErrRouteClosed)])).calls =
      [⟨.CmdGetBlockRequestMessage, 5⟩, ⟨.CmdGetBlocksRequestMessage, 7⟩,
        ⟨.CmdGetBlockCountRequestMessage, 3⟩] ∧
    (handledRequests (handleIncomingMessages sampleManager 0
        (delivered [⟨.CmdGetBlockRequestMessage, 5⟩, ⟨.CmdGetBlocksRequestMessage, 6⟩,
            ⟨.CmdGetBlockCountRequestMessage, 1⟩] ++
          [(⟨.other 0, 0⟩, some .ErrRouteClosed)])).calls =
      [⟨.CmdGetBlockRequestMessage, 5⟩, ⟨.CmdGetBlocksRequestMessage, 6⟩,
        ⟨.CmdGetBlockCountRequestMessage, 1⟩] ∧
    enqueued (handleIncomingMessages sampleManager 0
        (delivered [⟨.CmdGetBlockRequestMessage, 5⟩, ⟨.CmdGetBlocksRequestMessage, 6⟩,
            ⟨.CmdGetBlockCountRequestMessage, 1⟩] ++
          [(⟨.other 0, 0⟩, some .ErrRouteClosed)])).calls =
      responses (handleIncomingMessages sampleManager 0
        (delivered [⟨.CmdGetBlockRequestMessage, 5⟩, ⟨.CmdGetBlocksRequestMessage, 6⟩,
            ⟨.CmdGetBlockCountRequestMessage, 1⟩] ++
          [(⟨.other 0, 0⟩, some .ErrRouteClosed)])).calls ∧
    (enqueued (handleIncomingMessages sampleManager 0
        (delivered [⟨.CmdGetBlockRequestMessage, 5⟩, ⟨.CmdGetBlocksRequestMessage, 6⟩,
            ⟨.CmdGetBlockCountRequestMessage, 1⟩] ++
          [(⟨.other 0, 0⟩, some .ErrRouteClosed)])).calls).length = 3 ∧
    answered (handleIncomingMessages sampleManager 0
        (delivered [⟨.CmdGetBlockRequestMessage, 5⟩, ⟨.CmdGetBlocksRequestMessage, 6⟩,
            ⟨.CmdGetBlockCountRequestMessage, 1⟩] ++
          [(⟨.other 0, 0⟩, some .ErrRouteClosed)])).calls =
      [⟨.CmdGetBlockRequestMessage, 5⟩, ⟨.CmdGetBlocksRequestMessage, 6⟩,
        ⟨.CmdGetBlockCountRequestMessage, 1⟩].zip
      (enqueued (handleIncomingMessages sampleManager 0
        (delivered [⟨.CmdGetBlockRequestMessage, 5⟩, ⟨.CmdGetBlocksRequestMessage, 6⟩,
            ⟨.CmdGetBlockCountRequestMessage, 1⟩] ++
          [(⟨.other 0, 0⟩, some .ErrRouteClosed)])).calls)) :=
  ⟨by decide,
   handleIncomingMessages_responses_in_order sampleManager 0
     [⟨.CmdGetBlockRequestMessage, 5⟩, ⟨.CmdGetBlocksRequestMessage, 6⟩,
       ⟨.CmdGetBlockCountRequestMessage, 1⟩]
     [(⟨.other 0, 0⟩, some .ErrRouteClosed)] (by decide) (by decide) (by decide)⟩

/-- C2. For an error that is or wraps `router.ErrTimeout`, `handleError` calls
`Disconnect` exactly once, on the connection it was given and on no other, and returns
normally. -/
theorem handleError_timeout (err : error) (netConnection : NetConnection)
    (h : errors.Is err .ErrTimeout = true) :
    disconnected (handleError err netConnection).calls = [netConnection] ∧
    (handleError err netConnection).calls =
      [.Warnf netConnection, .Disconnect netConnection] ∧
    (handleError err netConnection).outcome = .returned none := by
  simp [handleError, h, disconnected]

/-- Witness for C2: a doubly wrapped timeout on connection 4. -/
theorem handleError_timeout_witness :
    errors.Is (some (.wrap 1 (.wrap 2 .ErrTimeout))) .ErrTimeout = true ∧
    disconnected (handleError (some (.wrap 1 (.wrap 2 .ErrTimeout))) 4).calls = [4] ∧
    (handleError (some (.wrap 1 (.wrap 2 .ErrTimeout))) 4).calls =
      [.Warnf 4, .Disconnect 4] ∧
    (handleError (some (.wrap 1 (.wrap 2 .ErrTimeout))) 4).outcome = .returned none :=
  ⟨by decide, handleError_timeout (some (.wrap 1 (.wrap 2 .ErrTimeout))) 4 (by decide)⟩

/-- C3. For a non-nil error that neither is nor wraps `router.ErrTimeout` or
`router.ErrRouteClosed`, `handleError` panics with that error, calls nothing (so no
`Disconnect`), and does not return normally. -/
theorem handleError_other_panics (e : GoError) (netConnection : NetConnection)
    (ht : errors.Is (some e) .ErrTimeout = false)
    (hc : errors.Is (some e) .ErrRouteClosed = false) :
    (handleError (some e) netConnection).outcome = .panicked (some e) ∧
    (handleError (some e) netConnection).calls = [] ∧
    disconnected (handleError (some e) netConnection).calls = [] ∧
    ∀ r, (handleError (some e) netConnection).outcome ≠ .returned r := by
  simp [handleError, ht, hc, disconnected]

/-- Witness for C3: a wrapped base error on connection 4. -/
theorem handleError_other_panics_witness :
    (handleError (some (.wrap 1 (.other 7))) 4).outcome = .panicked (some (.wrap 1 (.other 7))) ∧
    (handleError (some (.wrap 1 (.other 7))) 4).calls = [] ∧
    disconnected (handleError (some (.wrap 1 (.other 7))) 4).calls = [] ∧
    ∀ r, (handleError (some (.wrap 1 (.other 7))) 4).outcome ≠ .returned r :=
  handleError_other_panics (.wrap 1 (.other 7)) 4 (by decide) (by decide)

/-- C4. For an error that is or wraps `router.ErrRouteClosed` and is not a timeout
error, `handleError` returns normally, calls nothing (so no `Disconnect`), and does not
panic. -/
theorem handleError_route_closed (err : error) (netConnection : NetConnection)
    (hc : errors.Is err .ErrRouteClosed = true)
    (ht : errors.Is err .ErrTimeout = false) :
    (handleError err netConnection).outcome = .returned none ∧
    (handleError err netConnection).calls = [] ∧
    disconnected (handleError err netConnection).calls = [] ∧
    ∀ v, (handleError err netConnection).outcome ≠ .panicked v := by
  simp [handleError, ht, hc, disconnected]

/-- Witness for C4: a wrapped route-closed error on connection 4. -/
theorem handleError_route_closed_witness :
    (handleError (some (.wrap 3 .ErrRouteClosed)) 4).outcome = .returned none ∧
    (handleError (some (.wrap 3 .ErrRouteClosed)) 4).calls = [] ∧
    disconnected (handleError (some (.wrap 3 .ErrRouteClosed)) 4).calls = [] ∧
    ∀ v, (handleError (some (.wrap 3 .ErrRouteClosed)) 4).outcome ≠ .panicked v :=
  handleError_route_closed (some (.wrap 3 .ErrRouteClosed)) 4 (by decide) (by decide)

/-- C5. When the earlier requests were all served and the handler of the next request
returns the error `e`, `handleIncomingMessages` returns exactly `e`; its last two steps
are the `Dequeue` of that request and the failed handler call, so it enqueues nothing for
that request and dequeues nothing after it; and the messages it enqueued are the
responses of the handler calls on the earlier requests, in order. -/
theorem handleIncomingMessages_handler_error {σ : Type} (m : Manager σ) (s s1 : σ)
    (earlier : List Message) (request response : Message) (e : GoError)
    (later : List (Message × error)) (h : handler σ)
    (hhandler : ∀ r ∈ earlier, (handlersLookup m.rpchandlers r.Command).isSome = true)
    (hcalls : ∀ c ∈ (handleIncomingMessages m s (delivered earlier)).calls, c.failed = false)
    (hl : handlersLookup m.rpchandlers request.Command = some h)
    (hh : h (handleIncomingMessages m s (delivered earlier)).state request =
      ((response, some e), s1)) :
    (handleIncomingMessages m s (delivered earlier ++ (request, none) :: later)).outcome =
      .returned (some e) ∧
    (handleIncomingMessages m s (delivered earlier ++ (request, none) :: later)).calls =
      (handleIncomingMessages m s (delivered earlier)).calls ++
        [.Dequeue request none, .handler request response (some e)] ∧
    dequeued (handleIncomingMessages m s (delivered earlier ++ (request, none) :: later)).calls =
      delivered (earlier ++ [request]) ∧
    handledRequests
        (handleIncomingMessages m s (delivered earlier ++ (request, none) :: later)).calls =
      earlier ++ [request] ∧
    enqueued (handleIncomingMessages m s (delivered earlier ++ (request, none) :: later)).calls =
      responses (handleIncomingMessages m s (delivered earlier)).calls ∧
    handledRequests (handleIncomingMessages m s (delivered earlier)).calls = earlier ∧
    (enqueued
        (handleIncomingMessages m s (delivered earlier ++ (request, none) :: later)).calls).length =
      earlier.length := by
  have hpre := loop_succeeding m [] (by simp) earlier s hhandler
    (by simpa using hcalls)
  simp only [List.append_nil, List.head?_nil, List.take_nil] at hpre
  obtain ⟨h1, h2, h3, h4, h5, _⟩ := hpre
  rw [loop_append m _ _ s h5, step_handler_error m _ s1 request response e h later hl hh]
  refine ⟨rfl, rfl, ?_, ?_, ?_, h1, ?_⟩
  · simp only [Run.after, dequeued_append, h4, dequeued]
    simp [delivered]
  · simp [Run.after, handledRequests_append, h1, handledRequests]
  · simp [Run.after, enqueued_append, h2, enqueued]
  · simp [Run.after, enqueued_append, h3, enqueued]

/-- Witness for C5: two served requests, then a shutdown request whose handler fails,
then one more request that is never dequeued. -/
theorem handleIncomingMessages_handler_error_witness :
    (handleIncomingMessages sampleManager 0
        (delivered [⟨.CmdGetBlockRequestMessage, 5⟩, ⟨.CmdGetBlocksRequestMessage, 6⟩] ++
          (⟨.CmdShutDownRequestMessage, 0⟩, none) ::
            [(⟨.CmdGetBlockCountRequestMessage, 1⟩, none)])).outcome =
      .returned (some (.other 7)) ∧
    enqueued (handleIncomingMessages sampleManager 0
        (delivered [⟨.CmdGetBlockRequestMessage, 5⟩, ⟨.CmdGetBlocksRequestMessage, 6⟩] ++
          (⟨.CmdShutDownRequestMessage, 0⟩, none) ::
            [(⟨.CmdGetBlockCountRequestMessage, 1⟩, none)])).calls =
      [⟨.CmdGetBlockRequestMessage, 5⟩, ⟨.CmdGetBlocksRequestMessage, 7⟩] :=
  ⟨(handleIncomingMessages_handler_error sampleManager 0 2
      [⟨.CmdGetBlockRequestMessage, 5⟩, ⟨.CmdGetBlocksRequestMessage, 6⟩]
      ⟨.CmdShutDownRequestMessage, 0⟩ ⟨.CmdShutDownRequestMessage, 0⟩ (.other 7)
      [(⟨.CmdGetBlockCountRequestMessage, 1⟩, none)] sampleFailing
      (by decide) (by decide) rfl (by decide)).1,
   by decide⟩

/-- The calls to `RemoveListener` are those among the NotificationManager calls. -/
theorem count_removeListener (router : Router) (calls : List Call) :
    calls.count (.RemoveListener router) =
      (listenerCalls calls).count (.RemoveListener router) := by
  induction calls with
  | nil => rfl
  | cons c rest ih =>
    cases c <;> simp [listenerCalls, List.count_cons, ih]

/-- C6. For every run of the worker started by `routerInitializer` (the incoming route
was added without error) whose loop exits, whatever the exit path, the
NotificationManager is called exactly twice: `AddListener(router)` first and
`RemoveListener(router)` once afterwards, as the last effect of the worker; this is so
also when `handleError` panics. -/
theorem routerInitializer_removes_listener_once {σ : Type} (m : Manager σ)
    (router : Router) (netConnection : NetConnection) (s : σ)
    (iteration : List (MessageCommand × handler σ))
    (AddIncomingRoute : List MessageCommand → List (Message × error) × error)
    (hadded : (AddIncomingRoute (messageTypes iteration)).2 = none)
    (hexit : (handleIncomingMessages m s
      (AddIncomingRoute (messageTypes iteration)).1).outcome ≠ .blocked) :
    listenerCalls
        (routerInitializer m router netConnection s iteration AddIncomingRoute).calls =
      [.AddListener router, .RemoveListener router] ∧
    (routerInitializer m router netConnection s iteration AddIncomingRoute).calls.count
      (.RemoveListener router) = 1 ∧
    (∀ other, other ≠ router →
      (routerInitializer m router netConnection s iteration AddIncomingRoute).calls.count
        (.RemoveListener other) = 0) ∧
    (routerInitializer m router netConnection s iteration AddIncomingRoute).calls.getLast? =
      some (.RemoveListener router) ∧
    (routerInitializer m router netConnection s iteration AddIncomingRoute).outcome =
      (match (handleIncomingMessages m s
          (AddIncomingRoute (messageTypes iteration)).1).outcome with
        | .returned err => (handleError err netConnection).outcome
        | o => o) := by
  rcases hroute : AddIncomingRoute (messageTypes iteration) with ⟨incomingRoute, err0⟩
  rw [hroute] at hadded hexit
  simp only at hadded hexit
  subst hadded
  have hplain := (loop_calls_plain m incomingRoute s).1
  cases ho : (handleIncomingMessages m s incomingRoute).outcome with
  | blocked => exact absurd ho hexit
  | panicked v => exact absurd ho (loop_not_panicked m incomingRoute s v)
  | returned err =>
    have hrun : routerInitializer m router netConnection s iteration AddIncomingRoute =
        { calls := (.AddIncomingRoute (messageTypes iteration) none :: .AddListener router ::
            ((handleIncomingMessages m s incomingRoute).calls ++
              (handleError err netConnection).calls)) ++ [.RemoveListener router],
          state := (handleIncomingMessages m s incomingRoute).state,
          outcome := (handleError err netConnection).outcome } := by
      simp [routerInitializer, hroute, worker, ho, Run.after]
    have hnone : listenerCalls (handleError err netConnection).calls = [] := by
      simp only [handleError]
      split_ifs <;> simp [listenerCalls]
    have hlist : listenerCalls
        (routerInitializer m router netConnection s iteration AddIncomingRoute).calls =
        [.AddListener router, .RemoveListener router] := by
      rw [hrun]
      simp [listenerCalls, listenerCalls_append, hplain, hnone]
    refine ⟨hlist, ?_, ?_, ?_, ?_⟩
    · rw [count_removeListener, hlist]; simp
    · intro other hne
      rw [count_removeListener, hlist]
      simp [List.count_cons, Ne.symm hne]
    · rw [hrun]
      exact List.getLast?_concat _
    · rw [hrun]

/-- Witness for C6: one run for each exit path of the loop (timeout, route closed,
handler error, `Enqueue` error, missing handler); `handleError` panics in the third and
in the fifth. -/
theorem routerInitializer_removes_listener_once_witness :
    (listenerCalls (routerInitializer sampleManager 1 4 0 (handlers sampleHandlers)
        (fun _ => ([(⟨.CmdGetBlockRequestMessage, 5⟩, none),
          (⟨.other 0, 0⟩, some (.wrap 0 .ErrTimeout))], none))).calls =
      [.AddListener 1, .RemoveListener 1] ∧
     (routerInitializer sampleManager 1 4 0 (handlers sampleHandlers)
        (fun _ => ([(⟨.CmdGetBlockRequestMessage, 5⟩, none),
          (⟨.other 0, 0⟩, some (.wrap 0 .ErrTimeout))], none))).outcome = .returned none) ∧
    (listenerCalls (routerInitializer sampleManager 1 4 0 (handlers sampleHandlers)
        (fun _ => ([(⟨.other 0, 0⟩, some .ErrRouteClosed)], none))).calls =
      [.AddListener 1, .RemoveListener 1] ∧
     (routerInitializer sampleManager 1 4 0 (handlers sampleHandlers)
        (fun _ => ([(⟨.other 0, 0⟩, some .ErrRouteClosed)], none))).outcome =
      .returned none) ∧
    (listenerCalls (routerInitializer sampleManager 1 4 0 (handlers sampleHandlers)
        (fun _ => ([(⟨.CmdShutDownRequestMessage, 0⟩, none)], none))).calls =
      [.AddListener 1, .RemoveListener 1] ∧
     (routerInitializer sampleManager 1 4 0 (handlers sampleHandlers)
        (fun _ => ([(⟨.CmdShutDownRequestMessage, 0⟩, none)], none))).outcome =
      .panicked (some (.other 7))) ∧
    (listenerCalls (routerInitializer sampleManager 1 4 0 (handlers sampleHandlers)
        (fun _ => ([(⟨.CmdGetBlockRequestMessage, 99⟩, none)], none))).calls =
      [.AddListener 1, .RemoveListener 1] ∧
     (routerInitializer sampleManager 1 4 0 (handlers sampleHandlers)
        (fun _ => ([(⟨.CmdGetBlockRequestMessage, 99⟩, none)], none))).outcome =
      .returned none) ∧
    (listenerCalls (routerInitializer sampleManager 1 4 0 (handlers sampleHandlers)
        (fun _ => ([(⟨.other 3, 5⟩, none)], none))).calls =
      [.AddListener 1, .RemoveListener 1] ∧
     (routerInitializer sampleManager 1 4 0 (handlers sampleHandlers)
        (fun _ => ([(⟨.other 3, 5⟩, none)], none))).outcome = .panicked none) :=
  ⟨⟨(routerInitializer_removes_listener_once sampleManager 1 4 0 (handlers sampleHandlers)
      (fun _ => ([(⟨.CmdGetBlockRequestMessage, 5⟩, none),
        (⟨.other 0, 0⟩, some (.wrap 0 .ErrTimeout))], none)) rfl (by decide)).1, by decide⟩,
   ⟨(routerInitializer_removes_listener_once sampleManager 1 4 0 (handlers sampleHandlers)
      (fun _ => ([(⟨.other 0, 0⟩, some .ErrRouteClosed)], none)) rfl (by decide)).1,
    by decide⟩,
   ⟨(routerInitializer_removes_listener_once sampleManager 1 4 0 (handlers sampleHandlers)
      (fun _ => ([(⟨.CmdShutDownRequestMessage, 0⟩, none)], none)) rfl (by decide)).1,
    by decide⟩,
   ⟨(routerInitializer_removes_listener_once sampleManager 1 4 0 (handlers sampleHandlers)
      (fun _ => ([(⟨.CmdGetBlockRequestMessage, 99⟩, none)], none)) rfl (by decide)).1,
    by decide⟩,
   ⟨(routerInitializer_removes_listener_once sampleManager 1 4 0 (handlers sampleHandlers)
      (fun _ => ([(⟨.other 3, 5⟩, none)], none)) rfl (by decide)).1, by decide⟩⟩

/-- C7 on the code. A request whose command (`other 3`) has no entry in the handler
table ends the loop at once, with no handler call and nothing enqueued, but the value
returned is the nil error of the `Dequeue` that delivered the request, not a non-nil
unknown-command error. -/
theorem handleIncomingMessages_missing_handler_returns_nil :
    handlersLookup sampleManager.rpchandlers (MessageCommand.other 3) = none ∧
    (handleIncomingMessages sampleManager 0
        [(⟨.other 3, 5⟩, none), (⟨.CmdGetBlockRequestMessage, 1⟩, none)]).calls =
      [.Dequeue ⟨.other 3, 5⟩ none] ∧
    (handleIncomingMessages sampleManager 0
        [(⟨.other 3, 5⟩, none), (⟨.CmdGetBlockRequestMessage, 1⟩, none)]).outcome =
      .returned none := by
  refine ⟨rfl, by decide, by decide⟩

/-! ## The allow-list -/

theorem messageTypes_eq_map {σ : Type} (iteration : List (MessageCommand × handler σ)) :
    messageTypes iteration = iteration.map Prod.fst := by
  have key : ∀ (acc : List MessageCommand),
      iteration.foldl (fun acc entry => acc ++ [entry.1]) acc =
        acc ++ iteration.map Prod.fst := by
    induction iteration with
    | nil => intro acc; simp
    | cons x rest ih => intro acc; simp [ih]
  simpa [messageTypes] using key []

theorem lookup_isSome_iff {α : Type} (table : List (MessageCommand × α))
    (c : MessageCommand) :
    (table.lookup c).isSome = true ↔ c ∈ table.map Prod.fst := by
  induction table with
  | nil => simp
  | cons x rest ih =>
    obtain ⟨k, v⟩ := x
    by_cases hk : c = k
    · subst hk; simp [List.lookup]
    · have hb : (c == k) = false := by simpa using hk
      simp [List.lookup, hb, ih, hk]

theorem handlers_keys_nodup {σ : Type} (h : rpchandlers σ) :
    ((handlers h).map Prod.fst).Nodup := by
  simp [handlers]

/-- The properties of the collected key list, for any visiting order. -/
theorem messageTypes_of_perm {σ : Type} (h : rpchandlers σ)
    (iteration : List (MessageCommand × handler σ))
    (hiteration : iteration.Perm (handlers h)) :
    (messageTypes iteration).length = (handlers h).length ∧
    (messageTypes iteration).Nodup ∧
    (∀ c, c ∈ messageTypes iteration ↔ (handlersLookup h c).isSome = true) := by
  have hperm : (messageTypes iteration).Perm ((handlers h).map Prod.fst) := by
    rw [messageTypes_eq_map]
    exact hiteration.map _
  refine ⟨?_, hperm.nodup_iff.mpr (handlers_keys_nodup h), ?_⟩
  · rw [hperm.length_eq, List.length_map]
  · intro c
    rw [handlersLookup, lookup_isSome_iff]
    exact hperm.mem_iff

/-- C10. Whatever the order in which `range` visits the entries of `handlers` and
whatever `AddIncomingRoute` answers, `routerInitializer` calls `AddIncomingRoute` once,
with a list of commands that has as many elements as the table has entries (21), has no
duplicate, and contains a command exactly when the table has a handler for it
(each key once, nothing else); so every command of the allow-list is found by the
lookup of `handleIncomingMessages`. -/
theorem routerInitializer_allow_list {σ : Type} (m : Manager σ)
    (router : Router) (netConnection : NetConnection) (s : σ)
    (iteration : List (MessageCommand × handler σ))
    (AddIncomingRoute : List MessageCommand → List (Message × error) × error)
    (hiteration : iteration.Perm (handlers m.rpchandlers)) :
    allowLists (routerInitializer m router netConnection s iteration AddIncomingRoute).calls =
      [messageTypes iteration] ∧
    (messageTypes iteration).length = (handlers m.rpchandlers).length ∧
    (messageTypes iteration).length = 21 ∧
    (messageTypes iteration).Nodup ∧
    (∀ c, c ∈ messageTypes iteration ↔ (handlersLookup m.rpchandlers c).isSome = true) ∧
    (∀ c, (messageTypes iteration).count c =
      if (handlersLookup m.rpchandlers c).isSome then 1 else 0) ∧
    (∀ c ∈ messageTypes iteration, ∃ handler, handlersLookup m.rpchandlers c = some handler) := by
  obtain ⟨hlen, hnodup, hmem⟩ := messageTypes_of_perm m.rpchandlers iteration hiteration
  refine ⟨?_, hlen, ?_, hnodup, hmem, ?_, ?_⟩
  · rcases hroute : AddIncomingRoute (messageTypes iteration) with ⟨incomingRoute, err0⟩
    cases err0 with
    | some e => simp [routerInitializer, hroute, allowLists]
    | none =>
      have hloop := (loop_calls_plain m incomingRoute s).2.2
      have hnone : ∀ err, allowLists (handleError err netConnection).calls = [] := by
        intro err
        simp only [handleError]
        split_ifs <;> simp [allowLists]
      simp only [routerInitializer, hroute, worker]
      cases ho : (handleIncomingMessages m s incomingRoute).outcome with
      | blocked => simp [Run.after, allowLists, hloop]
      | panicked v => simp [Run.after, allowLists, allowLists_append, hloop]
      | returned err =>
        simp [Run.after, allowLists, allowLists_append, hloop, hnone]
  · rw [hlen]; simp [handlers]
  · intro c
    by_cases hc : c ∈ messageTypes iteration
    · rw [List.count_eq_one_of_mem hnodup hc, if_pos ((hmem c).mp hc)]
    · have : ¬ (handlersLookup m.rpchandlers c).isSome = true :=
        fun hs => hc ((hmem c).mpr hs)
      rw [List.count_eq_zero_of_not_mem hc, if_neg this]
  · intro c hc
    exact Option.isSome_iff_exists.mp ((hmem c).mp hc)

/-- Witness for C10: the table visited from its last entry to its first. -/
theorem routerInitializer_allow_list_witness :
    allowLists (routerInitializer sampleManager 1 4 0 (handlers sampleHandlers).reverse
        (fun _ => ([(⟨.other 0, 0⟩, some .ErrRouteClosed)], none))).calls =
      [messageTypes (handlers sampleHandlers).reverse] ∧
    (messageTypes (handlers sampleHandlers).reverse).length = 21 ∧
    (messageTypes (handlers sampleHandlers).reverse).Nodup ∧
    (messageTypes (handlers sampleHandlers).reverse).head? =
      some .CmdShutDownRequestMessage :=
  ⟨(routerInitializer_allow_list sampleManager 1 4 0 (handlers sampleHandlers).reverse
      (fun _ => ([(⟨.other 0, 0⟩, some .ErrRouteClosed)], none)) (List.reverse_perm _)).1,
   (routerInitializer_allow_list sampleManager 1 4 0 (handlers sampleHandlers).reverse
      (fun _ => ([(⟨.other 0, 0⟩, some .ErrRouteClosed)], none)) (List.reverse_perm _)).2.2.1,
   (routerInitializer_allow_list sampleManager 1 4 0 (handlers sampleHandlers).reverse
      (fun _ => ([(⟨.other 0, 0⟩, some .ErrRouteClosed)], none)) (List.reverse_perm _)).2.2.2.1,
   by decide⟩

/-! ## The exits of the loop -/

/-- Every exit of the loop is one of its four `return` statements, and the last effect
of the run tells which: the missing-handler branch after a successful `Dequeue`
(the value returned is nil), a failed `Dequeue`, a failed handler call or a failed
`Enqueue` (the value returned is the non-nil error of that call). -/
theorem loop_exit_cases {σ : Type} (m : Manager σ) (incomingRoute : List (Message × error))
    (s : σ) (err : error)
    (h : (handleIncomingMessages m s incomingRoute).outcome = .returned err) :
    ∃ before : List Call,
      (∃ request, (handleIncomingMessages m s incomingRoute).calls =
          before ++ [.Dequeue request none] ∧ err = none ∧
          handlersLookup m.rpchandlers request.Command = none) ∨
      (∃ request e, (handleIncomingMessages m s incomingRoute).calls =
          before ++ [.Dequeue request (some e)] ∧ err = some e) ∨
      (∃ request response e, (handleIncomingMessages m s incomingRoute).calls =
          before ++ [.handler request response (some e)] ∧ err = some e) ∨
      (∃ message e, (handleIncomingMessages m s incomingRoute).calls =
          before ++ [.Enqueue message (some e)] ∧ err = some e) := by
  induction incomingRoute generalizing s with
  | nil => simp [handleIncomingMessages] at h
  | cons x rest ih =>
    obtain ⟨request, err0⟩ := x
    cases err0 with
    | some e =>
      rw [step_dequeue_error] at h ⊢
      simp only [Outcome.returned.injEq] at h
      exact ⟨[], Or.inr (Or.inl ⟨request, e, rfl, h.symm⟩)⟩
    | none =>
      cases hl : handlersLookup m.rpchandlers request.Command with
      | none =>
        rw [step_no_handler m s request rest hl] at h ⊢
        simp only [Outcome.returned.injEq] at h
        exact ⟨[], Or.inl ⟨request, rfl, h.symm, hl⟩⟩
      | some hd =>
        rcases hh : hd s request with ⟨⟨response, e1⟩, s1⟩
        cases e1 with
        | some e =>
          rw [step_handler_error m s s1 request response e hd rest hl hh] at h ⊢
          simp only [Outcome.returned.injEq] at h
          exact ⟨[.Dequeue request none],
            Or.inr (Or.inr (Or.inl ⟨request, response, e, rfl, h.symm⟩))⟩
        | none =>
          rcases he : m.Enqueue s1 response with ⟨e2, s2⟩
          cases e2 with
          | some e =>
            rw [step_enqueue_error m s s1 s2 request response e hd rest hl hh he] at h ⊢
            simp only [Outcome.returned.injEq] at h
            exact ⟨[.Dequeue request none, .handler request response none],
              Or.inr (Or.inr (Or.inr ⟨response, e, rfl, h.symm⟩))⟩
          | none =>
            rw [step_ok m s s1 s2 request response hd rest hl hh he] at h ⊢
            obtain ⟨before, hcases⟩ := ih s2 h
            refine ⟨[.Dequeue request none, .handler request response none,
              .Enqueue response none] ++ before, ?_⟩
            rcases hcases with ⟨r, hc, hrest⟩ | ⟨r, e, hc, hrest⟩ | ⟨r, q, e, hc, hrest⟩ |
              ⟨q, e, hc, hrest⟩
            · exact Or.inl ⟨r, by simp [Run.after, hc], hrest⟩
            · exact Or.inr (Or.inl ⟨r, e, by simp [Run.after, hc], hrest⟩)
            · exact Or.inr (Or.inr (Or.inl ⟨r, q, e, by simp [Run.after, hc], hrest⟩))
            · exact Or.inr (Or.inr (Or.inr ⟨q, e, by simp [Run.after, hc], hrest⟩))

/-- C11. When the earlier requests were all served and `Dequeue` then succeeds with a
request whose command has no entry in `handlers`, `handleIncomingMessages` returns nil,
its last effect being that `Dequeue`. `handleError` applied to nil matches neither
`router.ErrTimeout` nor `router.ErrRouteClosed` and panics with the nil value without
calling anything, so the worker ends panicking with nil and without any `Disconnect`,
not by a normal return. Conversely, a run of the loop returns nil exactly when it left
through the missing-handler branch; every other exit (a failed `Dequeue`, handler call
or `Enqueue`) returns the non-nil error of the call that failed. -/
theorem missing_handler_is_fatal {σ : Type} (m : Manager σ) (router : Router)
    (netConnection : NetConnection) (s : σ) (earlier : List Message) (request : Message)
    (later : List (Message × error))
    (hhandler : ∀ r ∈ earlier, (handlersLookup m.rpchandlers r.Command).isSome = true)
    (hcalls : ∀ c ∈ (handleIncomingMessages m s (delivered earlier)).calls, c.failed = false)
    (hl : handlersLookup m.rpchandlers request.Command = none) :
    (handleIncomingMessages m s (delivered earlier ++ (request, none) :: later)).outcome =
      .returned none ∧
    (handleIncomingMessages m s (delivered earlier ++ (request, none) :: later)).calls =
      (handleIncomingMessages m s (delivered earlier)).calls ++ [.Dequeue request none] ∧
    errors.Is none .ErrTimeout = false ∧
    errors.Is none .ErrRouteClosed = false ∧
    handleError none netConnection = { calls := [], outcome := .panicked none } ∧
    (worker m router netConnection s
      (delivered earlier ++ (request, none) :: later)).outcome = .panicked none ∧
    disconnected (worker m router netConnection s
      (delivered earlier ++ (request, none) :: later)).calls = [] ∧
    (∀ (incomingRoute : List (Message × error)) (s0 : σ) (err : error),
      (handleIncomingMessages m s0 incomingRoute).outcome = .returned err →
      (err = none ↔
        ∃ before missing, (handleIncomingMessages m s0 incomingRoute).calls =
            before ++ [.Dequeue missing none] ∧
          handlersLookup m.rpchandlers missing.Command = none)) ∧
    (∀ (incomingRoute : List (Message × error)) (s0 : σ) (err : error),
      (handleIncomingMessages m s0 incomingRoute).outcome = .returned err →
      err ≠ none →
      ∃ before e, err = some e ∧
        ((∃ failed, (handleIncomingMessages m s0 incomingRoute).calls =
            before ++ [.Dequeue failed (some e)]) ∨
         (∃ handled response, (handleIncomingMessages m s0 incomingRoute).calls =
            before ++ [.handler handled response (some e)]) ∨
         (∃ message, (handleIncomingMessages m s0 incomingRoute).calls =
            before ++ [.Enqueue message (some e)]))) := by
  have hpre := loop_succeeding m [] (by simp) earlier s hhandler (by simpa using hcalls)
  simp only [List.append_nil, List.head?_nil] at hpre
  have hblocked := hpre.2.2.2.2.1
  have hrun : handleIncomingMessages m s (delivered earlier ++ (request, none) :: later) =
      { calls := (handleIncomingMessages m s (delivered earlier)).calls ++
          [.Dequeue request none],
        state := (handleIncomingMessages m s (delivered earlier)).state,
        outcome := .returned none } := by
    rw [loop_append m _ _ s hblocked, step_no_handler m _ request later hl]
    rfl
  have herr : handleError none netConnection = { calls := [], outcome := .panicked none } := by
    simp [handleError, errors.Is]
  have hworker : worker m router netConnection s
      (delivered earlier ++ (request, none) :: later) =
      { calls := ((handleIncomingMessages m s (delivered earlier)).calls ++
          [.Dequeue request none]) ++ [.RemoveListener router],
        state := (handleIncomingMessages m s (delivered earlier)).state,
        outcome := .panicked none } := by
    simp [worker, hrun, herr]
  refine ⟨by rw [hrun], by rw [hrun], rfl, rfl, herr, by rw [hworker], ?_, ?_, ?_⟩
  · rw [hworker]
    simp [disconnected_append, disconnected,
      (loop_calls_plain m (delivered earlier) s).2.1]
  · intro incomingRoute s0 err hout
    obtain ⟨before, hcases⟩ := loop_exit_cases m incomingRoute s0 err hout
    constructor
    · intro hnil
      rcases hcases with ⟨r, hc, _, hr⟩ | ⟨r, e, _, he⟩ | ⟨r, q, e, _, he⟩ | ⟨q, e, _, he⟩
      · exact ⟨before, r, hc, hr⟩
      · rw [hnil] at he; cases he
      · rw [hnil] at he; cases he
      · rw [hnil] at he; cases he
    · rintro ⟨before1, missing, hc1, _⟩
      rcases hcases with ⟨r, _, hnil, _⟩ | ⟨r, e, hc, _⟩ | ⟨r, q, e, hc, _⟩ | ⟨q, e, hc, _⟩
      · exact hnil
      · have := congrArg List.getLast? (hc1.symm.trans hc)
        simp at this
      · have := congrArg List.getLast? (hc1.symm.trans hc)
        simp at this
      · have := congrArg List.getLast? (hc1.symm.trans hc)
        simp at this
  · intro incomingRoute s0 err hout hne
    obtain ⟨before, hcases⟩ := loop_exit_cases m incomingRoute s0 err hout
    rcases hcases with ⟨r, _, hnil, _⟩ | ⟨r, e, hc, he⟩ | ⟨r, q, e, hc, he⟩ | ⟨q, e, hc, he⟩
    · exact absurd hnil hne
    · exact ⟨before, e, he, Or.inl ⟨r, hc⟩⟩
    · exact ⟨before, e, he, Or.inr (Or.inl ⟨r, q, hc⟩)⟩
    · exact ⟨before, e, he, Or.inr (Or.inr ⟨q, hc⟩)⟩

/-- Witness for C11: one served request, then a request with the command `other 3`,
which has no handler, on connection 4 of router 1. -/
theorem missing_handler_is_fatal_witness :
    (handleIncomingMessages sampleManager 0
        (delivered [⟨.CmdGetBlockRequestMessage, 5⟩] ++
          (⟨.other 3, 5⟩, none) :: [(⟨.CmdGetBlocksRequestMessage, 6⟩, none)])).outcome =
      .returned none ∧
    (worker sampleManager 1 4 0
        (delivered [⟨.CmdGetBlockRequestMessage, 5⟩] ++
          (⟨.other 3, 5⟩, none) :: [(⟨.CmdGetBlocksRequestMessage, 6⟩, none)])).outcome =
      .panicked none ∧
    (worker sampleManager 1 4 0
        (delivered [⟨.CmdGetBlockRequestMessage, 5⟩] ++
          (⟨.other 3, 5⟩, none) :: [(⟨.CmdGetBlocksRequestMessage, 6⟩, none)])).calls =
      [.Dequeue ⟨.CmdGetBlockRequestMessage, 5⟩ none,
       .handler ⟨.CmdGetBlockRequestMessage, 5⟩ ⟨.CmdGetBlockRequestMessage, 5⟩ none,
       .Enqueue ⟨.CmdGetBlockRequestMessage, 5⟩ none,
       .Dequeue ⟨.other 3, 5⟩ none,
       .RemoveListener 1] :=
  ⟨(missing_handler_is_fatal sampleManager 1 4 0 [⟨.CmdGetBlockRequestMessage, 5⟩]
      ⟨.other 3, 5⟩ [(⟨.CmdGetBlocksRequestMessage, 6⟩, none)]
      (by decide) (by decide) rfl).1,
   (missing_handler_is_fatal sampleManager 1 4 0 [⟨.CmdGetBlockRequestMessage, 5⟩]
      ⟨.other 3, 5⟩ [(⟨.CmdGetBlocksRequestMessage, 6⟩, none)]
      (by decide) (by decide) rfl).2.2.2.2.2.1,
   by decide⟩

end rpc

namespace indexers

/-! ## Accepting block records -/

/-- Entries pushed for other keys do not change the record of `k`. -/
theorem lookup_foldl_cons_of_absent (k : Hash) (entries old : List (Hash × Hash))
    (habsent : ∀ entry ∈ entries, entry.1 ≠ k) :
    (entries.foldl (fun records entry => entry :: records) old).lookup k = old.lookup k := by
  induction entries generalizing old with
  | nil => rfl
  | cons x rest ih =>
    obtain ⟨k1, v1⟩ := x
    have hne : k1 ≠ k := habsent (k1, v1) (by simp)
    have hb : (k == k1) = false := by simpa using Ne.symm hne
    rw [List.foldl_cons, ih _ (fun entry hentry => habsent entry (by simp [hentry]))]
    simp [List.lookup_cons, hb]

/-- After pushing entries that give `k` the single value `v`, the record of `k` is
`v`. -/
theorem lookup_foldl_cons_of_mem (k v : Hash) (entries old : List (Hash × Hash))
    (hmem : (k, v) ∈ entries) (hunique : ∀ entry ∈ entries, entry.1 = k → entry.2 = v) :
    (entries.foldl (fun records entry => entry :: records) old).lookup k = some v := by
  induction entries generalizing old with
  | nil => simp at hmem
  | cons x rest ih =>
    rw [List.foldl_cons]
    by_cases hrest : (k, v) ∈ rest
    · exact ih _ hrest (fun entry hentry => hunique entry (by simp [hentry]))
    · have hx : x = (k, v) := by
        rcases List.mem_cons.mp hmem with h | h
        · exact h.symm
        · exact absurd h hrest
      have habsent : ∀ entry ∈ rest, entry.1 ≠ k := by
        intro entry hentry hk
        obtain ⟨k1, b⟩ := entry
        simp only at hk
        subst hk
        have := hunique (k1, b) (by simp [hentry]) rfl
        simp only at this
        subst this
        exact hrest hentry
      rw [lookup_foldl_cons_of_absent k rest _ habsent, hx]
      simp

theorem foldl_accept_eq (blockHash : Hash) (accepted : List MsgTx) (old : List (Hash × Hash)) :
    accepted.foldl (fun records tx => (tx.TxHash, blockHash) :: records) old =
      (accepted.map (fun tx => (tx.TxHash, blockHash))).foldl
        (fun records entry => entry :: records) old := by
  induction accepted generalizing old with
  | nil => rfl
  | cons t rest ih => simp [ih]

/-- An event that does not assign the transaction leaves its accepting block as it
was. -/
theorem BlockThatAcceptedTx_applyEvent_of_not_assigns (idx : TxIndex) (e : Event)
    (txHash : Hash) (h : e.assigns txHash = false) :
    BlockThatAcceptedTx (applyEvent idx e) txHash = BlockThatAcceptedTx idx txHash := by
  cases e with
  | connect block accepted =>
    simp only [Event.assigns, List.any_eq_false, decide_eq_true_eq] at h
    simp only [applyEvent, ConnectBlock, BlockThatAcceptedTx, foldl_accept_eq]
    rw [lookup_foldl_cons_of_absent]
    intro entry hentry
    obtain ⟨t, ht, rfl⟩ := List.mem_map.mp hentry
    exact h t ht
  | disconnect block reassigned =>
    simp only [Event.assigns, List.any_eq_false, decide_eq_true_eq] at h
    simp only [applyEvent, DisconnectBlock, BlockThatAcceptedTx]
    rw [lookup_foldl_cons_of_absent _ _ _ h]

theorem BlockThatAcceptedTx_applyEvents_of_not_assigns (events : List Event) (idx : TxIndex)
    (txHash : Hash) (h : ∀ e ∈ events, e.assigns txHash = false) :
    BlockThatAcceptedTx (applyEvents idx events) txHash = BlockThatAcceptedTx idx txHash := by
  induction events generalizing idx with
  | nil => rfl
  | cons e rest ih =>
    simp only [applyEvents, List.foldl_cons]
    have := ih (applyEvent idx e) (fun e1 he1 => h e1 (by simp [he1]))
    simp only [applyEvents] at this
    rw [this, BlockThatAcceptedTx_applyEvent_of_not_assigns idx e txHash (h e (by simp))]

/-- C8. A transaction `T` accepted by block `B` when `B` is connected is reported as
accepted by `B`. After any further events and then a reorganization event in which
Consensus reassigns `T` to block `B1`, and as long as no later event assigns `T` again,
`T` is reported as accepted by `B1`. Both queries succeed. -/
theorem BlockThatAcceptedTx_follows_acceptance (idx : TxIndex) (B : Block)
    (accepted : List MsgTx) (T : MsgTx) (hT : T ∈ accepted) :
    BlockThatAcceptedTx (ConnectBlock idx B accepted) T.TxHash = .ok B.Hash ∧
    ∀ (between : List Event) (D B1 : Block) (reassigned : List (Hash × Hash))
      (later : List Event),
      (T.TxHash, B1.Hash) ∈ reassigned →
      (∀ entry ∈ reassigned, entry.1 = T.TxHash → entry.2 = B1.Hash) →
      (∀ e ∈ later, e.assigns T.TxHash = false) →
      BlockThatAcceptedTx
        (applyEvents
          (DisconnectBlock (applyEvents (ConnectBlock idx B accepted) between) D reassigned)
          later) T.TxHash = .ok B1.Hash := by
  constructor
  · simp only [ConnectBlock, BlockThatAcceptedTx, foldl_accept_eq]
    rw [lookup_foldl_cons_of_mem T.TxHash B.Hash]
    · exact List.mem_map.mpr ⟨T, hT, rfl⟩
    · intro entry hentry _
      obtain ⟨t, _, ht⟩ := List.mem_map.mp hentry
      rw [← ht]
  · intro between D B1 reassigned later hmem hunique hlater
    rw [BlockThatAcceptedTx_applyEvents_of_not_assigns later _ _ hlater]
    simp only [DisconnectBlock, BlockThatAcceptedTx]
    rw [lookup_foldl_cons_of_mem T.TxHash B1.Hash _ _ hmem hunique]

/-- Witness for C8, the scenario of the test: after blocks 1, 2, 3 the accepting block
of `block3Tx` is block 3, and after blocks 3A, 4, 5 it is block 3A. -/
theorem BlockThatAcceptedTx_follows_acceptance_witness :
    BlockThatAcceptedTx
        (applyEvents NewTxIndex (eventsBeforeBlock3 ++ [.connect block3 block3.Transactions]))
        block3Tx.TxHash = .ok block3.Hash ∧
    BlockThatAcceptedTx (applyEvents NewTxIndex scenario) block3Tx.TxHash =
      .ok block3A.Hash :=
  ⟨(BlockThatAcceptedTx_follows_acceptance (applyEvents NewTxIndex eventsBeforeBlock3)
      block3 block3.Transactions block3Tx (by decide)).1,
   (BlockThatAcceptedTx_follows_acceptance (applyEvents NewTxIndex eventsBeforeBlock3)
      block3 block3.Transactions block3Tx (by decide)).2
      [.connect block3A []] block3 block3A
      [(block3ACoinbase.TxHash, block3A.Hash), (block3Tx.TxHash, block3A.Hash)]
      [.connect block4 block4.Transactions, .connect block5 block5.Transactions]
      (by decide) (by decide) (by decide)⟩

/-! ## First-seen regions -/

theorem recordFirstSeen_keeps (regions : List (Hash × BlockRegion)) (entry : Hash × BlockRegion)
    (k : Hash) (r : BlockRegion) (h : regions.lookup k = some r) :
    (recordFirstSeen regions entry).lookup k = some r := by
  unfold recordFirstSeen
  cases hl : regions.lookup entry.1 with
  | some r1 => simpa using h
  | none =>
    obtain ⟨k1, r1⟩ := entry
    have hne : (k == k1) = false := by
      by_cases hk : k = k1
      · subst hk; simp only at hl; rw [hl] at h; cases h
      · simpa using hk
    simp [List.lookup_cons, hne, h]

theorem recordFirstSeen_covers (regions : List (Hash × BlockRegion))
    (entry : Hash × BlockRegion) :
    ((recordFirstSeen regions entry).lookup entry.1).isSome = true := by
  unfold recordFirstSeen
  cases hl : regions.lookup entry.1 with
  | some r1 => simp [hl]
  | none => obtain ⟨k1, r1⟩ := entry; simp

theorem recordFirstSeen_origin (regions : List (Hash × BlockRegion))
    (entry : Hash × BlockRegion) (k : Hash) (r : BlockRegion)
    (h : (recordFirstSeen regions entry).lookup k = some r) :
    regions.lookup k = some r ∨ entry = (k, r) := by
  unfold recordFirstSeen at h
  cases hl : regions.lookup entry.1 with
  | some r1 => rw [hl] at h; exact Or.inl h
  | none =>
    rw [hl] at h
    obtain ⟨k1, r1⟩ := entry
    by_cases hk : k = k1
    · subst hk
      simp at h
      exact Or.inr (by rw [h])
    · have hne : (k == k1) = false := by simpa using hk
      simp [List.lookup_cons, hne] at h
      exact Or.inl h

theorem foldl_recordFirstSeen_keeps (entries : List (Hash × BlockRegion))
    (regions : List (Hash × BlockRegion)) (k : Hash) (r : BlockRegion)
    (h : regions.lookup k = some r) :
    (entries.foldl recordFirstSeen regions).lookup k = some r := by
  induction entries generalizing regions with
  | nil => exact h
  | cons x rest ih => exact ih _ (recordFirstSeen_keeps regions x k r h)

theorem foldl_recordFirstSeen_covers (entries : List (Hash × BlockRegion))
    (regions : List (Hash × BlockRegion)) (entry : Hash × BlockRegion)
    (hentry : entry ∈ entries) :
    ((entries.foldl recordFirstSeen regions).lookup entry.1).isSome = true := by
  induction entries generalizing regions with
  | nil => simp at hentry
  | cons x rest ih =>
    rcases List.mem_cons.mp hentry with hx | hrest
    · subst hx
      obtain ⟨r, hr⟩ := Option.isSome_iff_exists.mp (recordFirstSeen_covers regions entry)
      rw [List.foldl_cons, foldl_recordFirstSeen_keeps rest _ _ r hr]
      rfl
    · exact ih _ hrest

theorem foldl_recordFirstSeen_origin (entries : List (Hash × BlockRegion))
    (regions : List (Hash × BlockRegion)) (k : Hash) (r : BlockRegion)
    (h : (entries.foldl recordFirstSeen regions).lookup k = some r) :
    regions.lookup k = some r ∨ (k, r) ∈ entries := by
  induction entries generalizing regions with
  | nil => exact Or.inl h
  | cons x rest ih =>
    rcases ih _ h with h1 | h1
    · rcases recordFirstSeen_origin regions x k r h1 with h2 | h2
      · exact Or.inl h2
      · exact Or.inr (by simp [h2])
    · exact Or.inr (by simp [h1])

/-- A slice that succeeds lies within the bytes, has exactly the requested length and
is the requested range. -/
theorem slice_eq_some (bytes : List Nat) (offset len : Nat) (result : List Nat)
    (h : slice bytes offset len = some result) :
    offset + len ≤ bytes.length ∧ len = result.length ∧
      (bytes.drop offset).take len = result := by
  unfold slice at h
  split at h
  · rename_i hle
    have hr : (bytes.drop offset).take len = result := by simpa using h
    refine ⟨hle, ?_, hr⟩
    rw [← hr, List.length_take, List.length_drop]
    omega
  · cases h

/-- Every region computed by `txRegions` names the block, lies within the bytes
`before ++ encodings` and addresses there exactly the encoding of its transaction, when
the layout starts right after `before`. -/
theorem txRegions_sound (blockHash : Hash) (txs : List MsgTx) (before : List Nat)
    (k : Hash) (r : BlockRegion)
    (h : (k, r) ∈ txRegions blockHash before.length txs) :
    ∃ t ∈ txs, t.TxHash = k ∧ r.Hash = blockHash ∧
      slice (before ++ (txs.map (fun tx => tx.encoding)).flatten) r.Offset r.Len =
        some t.encoding := by
  induction txs generalizing before with
  | nil => simp [txRegions] at h
  | cons t rest ih =>
    simp only [txRegions, List.mem_cons] at h
    rcases h with h | h
    · refine ⟨t, by simp, ?_, ?_, ?_⟩
      · exact (Prod.mk.inj h).1.symm
      · rw [(Prod.mk.inj h).2]
      · rw [(Prod.mk.inj h).2]
        simp only [slice, List.map_cons, List.flatten_cons]
        rw [if_pos (by simp), List.drop_left, List.take_left]
    · have hlen : (before ++ t.encoding).length = before.length + t.encoding.length := by
        simp
      rw [← hlen] at h
      obtain ⟨t1, ht1, hk, hh, hs⟩ := ih (before ++ t.encoding) h
      refine ⟨t1, by simp [ht1], hk, hh, ?_⟩
      simpa [List.append_assoc] using hs

theorem txRegions_keys (blockHash : Hash) (txs : List MsgTx) (offset : Nat) (t : MsgTx)
    (ht : t ∈ txs) : ∃ r, (t.TxHash, r) ∈ txRegions blockHash offset txs := by
  induction txs generalizing offset with
  | nil => simp at ht
  | cons t1 rest ih =>
    rcases List.mem_cons.mp ht with h | h
    · subst h
      exact ⟨⟨blockHash, offset, t.encoding.length⟩, by simp [txRegions]⟩
    · obtain ⟨r, hr⟩ := ih (offset + t1.encoding.length) h
      exact ⟨r, by simp [txRegions, hr]⟩

theorem RegionsValid_applyEvent (idx : TxIndex) (blocks : List Block) (e : Event)
    (h : RegionsValid idx.FirstSeenRegion blocks) :
    RegionsValid (applyEvent idx e).FirstSeenRegion (blocks ++ connectedBlocks [e]) := by
  cases e with
  | disconnect block reassigned =>
    simpa [applyEvent, DisconnectBlock, connectedBlocks] using h
  | connect block accepted =>
    simp only [applyEvent, ConnectBlock, connectedBlocks]
    constructor
    · intro k r hk
      rcases foldl_recordFirstSeen_origin _ _ k r hk with h1 | h1
      · obtain ⟨b, hb, rest⟩ := h.1 k r h1
        exact ⟨b, by simp [hb], rest⟩
      · obtain ⟨t, ht, htk, hh, hs⟩ := txRegions_sound block.Hash block.Transactions
          block.header k r h1
        exact ⟨block, by simp, t, ht, htk, hh.symm, hs⟩
    · intro b hb t ht
      rcases List.mem_append.mp hb with hb1 | hb1
      · obtain ⟨r, hr⟩ := Option.isSome_iff_exists.mp (h.2 b hb1 t ht)
        rw [foldl_recordFirstSeen_keeps _ _ _ r hr]
        rfl
      · have hbb : b = block := by simpa using hb1
        subst hbb
        obtain ⟨r, hr⟩ := txRegions_keys b.Hash b.Transactions b.header.length t ht
        exact foldl_recordFirstSeen_covers _ _ (t.TxHash, r) hr

theorem connectedBlocks_cons (e : Event) (events : List Event) :
    connectedBlocks (e :: events) = connectedBlocks [e] ++ connectedBlocks events := by
  cases e <;> simp [connectedBlocks]

theorem RegionsValid_applyEvents (events : List Event) (idx : TxIndex) (blocks : List Block)
    (h : RegionsValid idx.FirstSeenRegion blocks) :
    RegionsValid (applyEvents idx events).FirstSeenRegion
      (blocks ++ connectedBlocks events) := by
  induction events generalizing idx blocks with
  | nil => simpa [applyEvents, connectedBlocks] using h
  | cons e rest ih =>
    have := ih (applyEvent idx e) _ (RegionsValid_applyEvent idx blocks e h)
    rw [connectedBlocks_cons, ← List.append_assoc]
    simpa [applyEvents] using this

/-- A recorded region is never overwritten by later events. -/
theorem TxFirstBlockRegion_stable (events : List Event) (idx : TxIndex) (k : Hash)
    (r : BlockRegion) (h : TxFirstBlockRegion idx k = .ok r) :
    TxFirstBlockRegion (applyEvents idx events) k = .ok r := by
  induction events generalizing idx with
  | nil => exact h
  | cons e rest ih =>
    refine ih (applyEvent idx e) ?_
    have hl : idx.FirstSeenRegion.lookup k = some r := by
      simp only [TxFirstBlockRegion] at h
      cases hq : idx.FirstSeenRegion.lookup k with
      | none => rw [hq] at h; cases h
      | some r1 => rw [hq] at h; cases h; rfl
    cases e with
    | disconnect block reassigned =>
      simp [applyEvent, DisconnectBlock, TxFirstBlockRegion, hl]
    | connect block accepted =>
      simp only [applyEvent, ConnectBlock, TxFirstBlockRegion]
      rw [foldl_recordFirstSeen_keeps _ _ k r hl]

/-- C9. Let the index be built from any sequence of Consensus events (connections and
reorganizations) in which digests are content addresses: transactions of connected
blocks with equal digests have equal encodings, and connected blocks with equal digests
are equal. Then for every transaction `T` of a connected block, `TxFirstBlockRegion`
succeeds with a region that names a connected block, the range
`[Offset, Offset + Len)` lies within that block's serialized form, `Len` is the length
of the canonical encoding of `T`, the bytes of the range are exactly that encoding (the
slice expression of the test does not go out of range and yields the encoding), and the
answer stays the same after any further events. -/
theorem TxFirstBlockRegion_addresses_encoding (events : List Event)
    (htxs : ∀ b ∈ connectedBlocks events, ∀ b1 ∈ connectedBlocks events,
      ∀ t ∈ b.Transactions, ∀ t1 ∈ b1.Transactions,
        t.TxHash = t1.TxHash → t.encoding = t1.encoding)
    (hblocks : ∀ b ∈ connectedBlocks events, ∀ b1 ∈ connectedBlocks events,
      b.Hash = b1.Hash → b = b1)
    (block : Block) (hblock : block ∈ connectedBlocks events)
    (T : MsgTx) (hT : T ∈ block.Transactions) :
    ∃ region, TxFirstBlockRegion (applyEvents NewTxIndex events) T.TxHash = .ok region ∧
      (∃ first ∈ connectedBlocks events, first.Hash = region.Hash) ∧
      (∀ first ∈ connectedBlocks events, first.Hash = region.Hash →
        region.Offset + region.Len ≤ first.Bytes.length ∧
        region.Len = T.encoding.length ∧
        (first.Bytes.drop region.Offset).take region.Len = T.encoding ∧
        slice first.Bytes region.Offset region.Len = some T.encoding) ∧
      (∀ more : List Event,
        TxFirstBlockRegion (applyEvents NewTxIndex (events ++ more)) T.TxHash =
          .ok region) := by
  have hvalid : RegionsValid (applyEvents NewTxIndex events).FirstSeenRegion
      (connectedBlocks events) := by
    have := RegionsValid_applyEvents events NewTxIndex [] (by simp [RegionsValid, NewTxIndex])
    simpa using this
  obtain ⟨region, hregion⟩ := Option.isSome_iff_exists.mp (hvalid.2 block hblock T hT)
  obtain ⟨b, hb, t, ht, htk, hbh, hs⟩ := hvalid.1 _ _ hregion
  have hquery : TxFirstBlockRegion (applyEvents NewTxIndex events) T.TxHash = .ok region := by
    simp [TxFirstBlockRegion, hregion]
  refine ⟨region, hquery, ⟨b, hb, hbh⟩, ?_, ?_⟩
  · intro first hfirst hfh
    have hfb : first = b := hblocks first hfirst b hb (hfh.trans hbh.symm)
    have henc : t.encoding = T.encoding := htxs b hb block hblock t ht T hT htk
    rw [hfb, ← henc]
    obtain ⟨h1, h2, h3⟩ := slice_eq_some _ _ _ _ hs
    exact ⟨h1, h2, h3, hs⟩
  · intro more
    have := TxFirstBlockRegion_stable more _ _ _ hquery
    simpa [applyEvents, List.foldl_append] using this

/-- Witness for C9, the scenario of the test: after blocks 1, 2, 3, 3A, 4, 5 the region
of `block3Tx` still points into block 3, it ends where the 24 bytes of block 3 end, and
the bytes it addresses are the encoding of `block3Tx`; a region one byte longer would
be out of range. -/
theorem TxFirstBlockRegion_addresses_encoding_witness :
    TxFirstBlockRegion (applyEvents NewTxIndex scenario) block3Tx.TxHash =
      .ok { Hash := block3.Hash, Offset := 16, Len := 8 } ∧
    slice block3.Bytes 16 8 = some block3Tx.encoding ∧
    slice block3.Bytes 16 9 = none ∧
    ∃ region, TxFirstBlockRegion (applyEvents NewTxIndex scenario) block3Tx.TxHash =
        .ok region ∧
      (∃ first ∈ connectedBlocks scenario, first.Hash = region.Hash) ∧
      (∀ first ∈ connectedBlocks scenario, first.Hash = region.Hash →
        region.Offset + region.Len ≤ first.Bytes.length ∧
        region.Len = block3Tx.encoding.length ∧
        (first.Bytes.drop region.Offset).take region.Len = block3Tx.encoding ∧
        slice first.Bytes region.Offset region.Len = some block3Tx.encoding) ∧
      (∀ more : List Event,
        TxFirstBlockRegion (applyEvents NewTxIndex (scenario ++ more)) block3Tx.TxHash =
          .ok region) :=
  ⟨rfl, by decide, by decide,
   TxFirstBlockRegion_addresses_encoding scenario (by decide) (by decide) block3 (by decide)
     block3Tx (by decide)⟩

end indexers
